import Mathlib

/-!
Verification development for the CASCADE-delete impact-analysis and
data-restoration engine (`generate_missing_data_sql.py`).

The engine is shallowly embedded: records are association lists of Python-like
values, the two database connections are modelled as oracles (pure functions
answering exactly the queries the source code issues), and every piece of
engine logic (registries, statement synthesis, the breadth-first traversal,
the optimizer and the NULL-foreign-key pass) is translated function by
function from the source.
-/

set_option maxHeartbeats 1000000

namespace Restoration

/-- The single-quote character, written via its code point so that quote
handling is explicit everywhere in this file. -/
def sq : String := String.mk [Char.ofNat 39]

/-- The backslash character. -/
def bslash : Char := Char.ofNat 92

/-- Python-like values appearing in fetched records.  The engine branches on
null, bool, str and numeric values; binary values are base64-converted to
strings before any branching the claims depend on, so they are represented by
`str`. -/
inductive Value where
  | null : Value
  | bool : Bool → Value
  | str : String → Value
  | int : Int → Value
deriving DecidableEq

/-- Python `str(v)`. -/
def pyStr : Value → String
  | .null => "None"
  | .bool true => "True"
  | .bool false => "False"
  | .str s => s
  | .int n => toString n

/-- Python truthiness of a value. -/
def pyTruthy : Value → Bool
  | .null => false
  | .bool b => b
  | .str s => !(s.isEmpty)
  | .int n => !(n = 0)

/-- Whether a value is Python `None`. -/
def vIsNull : Value → Bool
  | .null => true
  | _ => false

/-- Python `s.replace(quote, quote ++ quote)`: double every single quote. -/
def pyEscapeQuotes (s : String) : String :=
  String.mk (s.data.foldr
    (fun c acc => if c = Char.ofNat 39 then Char.ofNat 39 :: Char.ofNat 39 :: acc else c :: acc) [])

/-- Wrap a string in single quotes (no escaping), as Python f-strings
interpolating into a quoted SQL position do. -/
def quoted (s : String) : String := sq ++ s ++ sq

/-- Whether the character list `hay` has the character list `pre` as a prefix. -/
def charsHavePrefix : List Char → List Char → Bool
  | _, [] => true
  | [], _ :: _ => false
  | c :: cs, d :: ds => c = d && charsHavePrefix cs ds

/-- Whether `hay` contains `needle` as a contiguous sublist. -/
def charsContain (hay needle : List Char) : Bool :=
  match hay with
  | [] => charsHavePrefix [] needle
  | _ :: t => charsHavePrefix hay needle || charsContain t needle

/-- Python `needle in s` on strings. -/
def strContains (s needle : String) : Bool := charsContain s.data needle.data

/-- Python `s.lower()` (ASCII is all the engine feeds it). -/
def strLower (s : String) : String := String.mk (s.data.map Char.toLower)

/-- Python `time in col.lower() or date in col.lower()`, the column-name
heuristic used for timestamp rendering. -/
def hasTimeOrDate (col : String) : Bool :=
  strContains (strLower col) "time" || strContains (strLower col) "date"

/-- Python `s.strip()`. -/
def pyStrip (s : String) : String :=
  String.mk (((s.data.dropWhile Char.isWhitespace).reverse.dropWhile Char.isWhitespace).reverse)

/-- Python `s.strip(quote)`: drop all leading and trailing single quotes. -/
def pyStripQuotes (s : String) : String :=
  String.mk (((s.data.dropWhile (fun c => c = Char.ofNat 39)).reverse.dropWhile
    (fun c => c = Char.ofNat 39)).reverse)

/-- Helper for `pySplitFirst`: split a character list at the first occurrence
of `sep`. -/
def charsSplitFirst : List Char → List Char → Option (List Char × List Char)
  | hay, sep =>
    if charsHavePrefix hay sep then some ([], hay.drop sep.length)
    else match hay with
      | [] => none
      | c :: t => (charsSplitFirst t sep).map (fun p => (c :: p.1, p.2))

/-- Python `s.split(sep, 1)` when `sep` occurs: the parts before and after the
first occurrence. -/
def pySplitFirst (s sep : String) : Option (String × String) :=
  (charsSplitFirst s.data sep.data).map (fun p => (String.mk p.1, String.mk p.2))

/-- Python `s.startswith(pre)`. -/
def strStartsWith (s pre : String) : Bool := charsHavePrefix s.data pre.data

/-- Whether a string starts with a single quote. -/
def startsWithQuote (s : String) : Bool := s.data.head? = some (Char.ofNat 39)

/-- Whether a string ends with a single quote. -/
def endsWithQuote (s : String) : Bool := s.data.getLast? = some (Char.ofNat 39)

/-- Python `s[1:-1]`. -/
def pySliceOneToLast (s : String) : String :=
  String.mk ((s.data.drop 1).dropLast)

/-- `", ".join l`. -/
def joinComma (l : List String) : String := String.intercalate ", " l

/-- `" AND ".join l`. -/
def joinAnd (l : List String) : String := String.intercalate " AND " l

section Dict

variable {α : Type} {β : Type} [DecidableEq α]

/-- Association-list lookup, modelling Python `d.get(k)` / `d[k]`. -/
def dget? : List (α × β) → α → Option β
  | [], _ => none
  | (k, v) :: t, a => if k = a then some v else dget? t a

/-- Python dict assignment `d[k] = v`: overwrite in place, or append a new
entry (dicts preserve insertion order). -/
def dset : List (α × β) → α → β → List (α × β)
  | [], a, b => [(a, b)]
  | (k, v) :: t, a, b => if k = a then (k, b) :: t else (k, v) :: dset t a b

/-- Python `k in d`. -/
def dmem (d : List (α × β)) (a : α) : Bool := (dget? d a).isSome

/-- Python `set.add`: append if absent (determinised to insertion order). -/
def setAdd (l : List α) (a : α) : List α := if a ∈ l then l else l ++ [a]

/-- The key list of an association list. -/
def keysOf (d : List (α × β)) : List α := d.map Prod.fst

end Dict

/-- One outgoing edge of the cascade graph, as stored by
`build_foreign_key_dependency_graph`: the child-side table, the child-side
(local) column and the referenced parent column.  (Schema/constraint-name
fields of the source dictionaries are never read by the engine logic the
claims cover and are omitted.) -/
structure FkEdge where
  child_table : String
  local_column : String
  referenced_column : String
deriving DecidableEq

/-- The cascade graph: a dict from parent table name to its child edges. -/
abbrev CascadeGraph : Type := List (String × List FkEdge)

/-- Python `cascade_graph.get(start_table, [])`. -/
def children_of (g : CascadeGraph) (t : String) : List FkEdge :=
  (dget? g t).getD []

/-- The depth/path payload stored per table by the descendants enumeration. -/
structure DepthPath where
  depth : Nat
  path : String
deriving DecidableEq

/-- One merge step of `count_affected_subtables_recursive` (lines 293-298 of
the source): keep an entry if absent or strictly shallower, prefixing the
start table onto the recorded path. -/
def mergeAffectedEntry (start : String) (a : List (String × DepthPath))
    (p : String × DepthPath) : List (String × DepthPath) :=
  match dget? a p.1 with
  | none => dset a p.1 ⟨p.2.depth, start ++ " -> " ++ p.2.path⟩
  | some old =>
      if p.2.depth < old.depth then dset a p.1 ⟨p.2.depth, start ++ " -> " ++ p.2.path⟩
      else a

/-- `count_affected_subtables_recursive` (source lines 247-300).  The Python
recursion terminates only because the visited set grows inside a finite graph;
the embedding makes that explicit with a fuel argument, and the wrapper
`count_affected_subtables` below supplies fuel that the termination argument
of the source guarantees to be sufficient. -/
def count_affected_subtables_recursive (g : CascadeGraph) (start : String)
    (visited : List String) (depth : Nat) : Nat → List (String × DepthPath)
  | 0 => []
  | fuel + 1 =>
    if start ∈ visited then []
    else
      let visited2 := visited ++ [start]
      (children_of g start).foldl (fun acc e =>
        let acc1 := if dmem acc e.child_table then acc
          else dset acc e.child_table ⟨depth + 1, start ++ " -> " ++ e.child_table⟩
        let recRes := count_affected_subtables_recursive g e.child_table visited2 (depth + 1) fuel
        recRes.foldl (mergeAffectedEntry start) acc1) []

/-- All table names mentioned by the graph (parents and children). -/
def all_graph_nodes (g : CascadeGraph) : List String :=
  g.foldl (fun acc p => acc ++ p.1 :: p.2.map (·.child_table)) []

/-- The call made by `build_foreign_key_dependency_graph` (visited = empty
set, depth 0); the fuel bound exceeds the number of graph nodes, which the
per-branch visited set can never exceed. -/
def count_affected_subtables (g : CascadeGraph) (start : String) :
    List (String × DepthPath) :=
  count_affected_subtables_recursive g start [] 0 ((all_graph_nodes g).length + 1)

/-- One cascade edge from table `u` to table `v`. -/
def edge_to (g : CascadeGraph) (u v : String) : Prop :=
  ∃ e ∈ children_of g u, e.child_table = v

/-- `Reaches g u v n`: there is a walk of `n ≥ 1` cascade edges from `u` to
`v`; `∃ n, Reaches g u v n` is transitive reachability in at least one step. -/
inductive Reaches (g : CascadeGraph) : String → String → Nat → Prop where
  | single {u v : String} : edge_to g u v → Reaches g u v 1
  | head {u w v : String} {n : Nat} :
      edge_to g u w → Reaches g w v n → Reaches g u v (n + 1)

/-- A walk of `n` edges from `u` to `v` whose sources successively avoid the
accumulated set `avoid` — i.e. a walk along a single recursion branch of the
enumeration, respecting its per-branch visited set. -/
inductive ReachesAvoid (g : CascadeGraph) : String → String → List String → Nat → Prop where
  | single {u v : String} {avoid : List String} :
      u ∉ avoid → edge_to g u v → ReachesAvoid g u v avoid 1
  | head {u w v : String} {avoid : List String} {n : Nat} :
      u ∉ avoid → edge_to g u w → ReachesAvoid g w v (u :: avoid) n →
      ReachesAvoid g u v avoid (n + 1)

/-! ## The record-processing pipeline -/
/-- A fetched row: a dict from column name to value. -/
abbrev Record : Type := List (String × Value)

/-- Python `record.get(column)`: `None` both for a missing key and for a
stored null, exactly the two cases the source conflates through
`record.get(col)` / `stmt.values.get(col)`. -/
def rget (r : Record) (c : String) : Value := (dget? r c).getD .null

/-- The shape of `restored_records` and `skipped_records`:
table → primary-key column → set of stringified values. -/
abbrev Registry : Type := List (String × List (String × List String))

/-- Python `str(v) in registry.get(table, {}).get(column, set())`. -/
def registry_mem (r : Registry) (table column v : String) : Bool :=
  match dget? r table with
  | none => false
  | some m =>
    match dget? m column with
    | none => false
    | some s => s.contains v

/-- The registry-population loops of `collect_insert_and_update_statements`
(source lines 1047-1055 and 1073-1081, identical in shape): guard on a
non-empty primary key, create the table dict and per-column sets on demand,
and add `str(pk_value)` for every non-null primary-key value of the record. -/
def add_pk_values (r : Registry) (table : String) (pk_columns : List String)
    (record : Record) : Registry :=
  if pk_columns.isEmpty then r
  else
    let r1 := if dmem r table then r else dset r table []
    pk_columns.foldl (fun acc pk =>
      let m := (dget? acc table).getD []
      let m1 := if dmem m pk then m else dset m pk []
      let acc1 := dset acc table m1
      match rget record pk with
      | .null => acc1
      | v =>
        let m2 := (dget? acc1 table).getD []
        let s := (dget? m2 pk).getD []
        dset acc1 table (dset m2 pk (setAdd s (pyStr v)))) r1

/-- One entry of `get_all_foreign_key_relationships`: a local column together
with the parent table/column it references. -/
structure FkRel where
  local_column : String
  referenced_table : String
  referenced_column : String
deriving DecidableEq

/-- The source ("restore") database, modelled as an oracle answering exactly
the queries the source code issues against it:
`SELECT * FROM t WHERE cond` (`select`), the parameterised
`SELECT * FROM t WHERE col = %s` of the missing-parent pass
(`select_by_column`), the catalog introspection helpers (`table_columns`,
`timestamp_columns`, `all_fk_relationships`,
`pk_columns` = `get_primary_key_columns_from_constraints`, empty on parse
failure), and `check_if_record_exists`
(`SELECT 1 FROM t WHERE id_column = %s LIMIT 1`; a query error yields `false`,
the restore-favouring default, so oracle answers subsume the error path). -/
structure SourceDb where
  select : String → String → List Record
  select_by_column : String → String → String → List Record
  table_columns : String → List String
  timestamp_columns : String → List String
  all_fk_relationships : String → List FkRel
  pk_columns : String → List String
  exists_by_id : String → String → String → Bool

/-- The target (current production) database, as the oracle answering
`check_if_record_exists` (`exists_by_id table value id_column`) and the
literal existence queries `SELECT 1 FROM table WHERE cond LIMIT 1`
(`query_exists table cond`); errors answer `false` as in the source. -/
structure TargetDb where
  exists_by_id : String → String → String → Bool
  query_exists : String → String → Bool

/-- `get_primary_key_columns_from_constraints` (source lines 724-792): the
catalog lookup and constraint-text parse, summarised by the oracle; an
unparseable or missing primary key yields `[]`. -/
def get_primary_key_columns_from_constraints (db : SourceDb) (table : String) : List String :=
  db.pk_columns table

/-- `get_all_foreign_key_relationships` (source lines 447-488). -/
def get_all_foreign_key_relationships (db : SourceDb) (table : String) : List FkRel :=
  db.all_fk_relationships table

/-- `get_table_columns` (source lines 405-423). -/
def get_table_columns (db : SourceDb) (table : String) : List String :=
  db.table_columns table

/-- `get_table_timestamp_columns` (source lines 426-444). -/
def get_table_timestamp_columns (db : SourceDb) (table : String) : List String :=
  db.timestamp_columns table

/-- `get_foreign_key_columns` (source lines 386-402): local columns of
cascade-graph edges into this table (duplicates kept, as the source appends
without checking), then every catalogued foreign-key column not already
listed. -/
def get_foreign_key_columns (db : SourceDb) (table : String)
    (cascade_graph : CascadeGraph) : List String :=
  let fk1 := cascade_graph.foldl (fun acc p =>
    p.2.foldl (fun acc2 e =>
      if e.child_table = table then acc2 ++ [e.local_column] else acc2) acc) []
  (db.all_fk_relationships table).foldl
    (fun acc r => if r.local_column ∈ acc then acc else acc ++ [r.local_column]) fk1

/-- The `fk_parent_tables` / `fk_parent_columns` dicts of
`collect_insert_and_update_statements` (source lines 888-903): cascade-graph
edges first (later edges overwrite, as Python dict assignment does), then the
full foreign-key catalog for columns not already mapped. -/
def fk_parent_maps (cascade_graph : CascadeGraph) (all_rels : List FkRel)
    (table : String) : List (String × String) × List (String × String) :=
  let m := cascade_graph.foldl
    (fun (acc : List (String × String) × List (String × String)) p =>
      p.2.foldl (fun acc2 e =>
        if e.child_table = table then
          (dset acc2.1 e.local_column p.1, dset acc2.2 e.local_column e.referenced_column)
        else acc2) acc) ([], [])
  all_rels.foldl (fun acc r =>
    if dmem acc.1 r.local_column then acc
    else (dset acc.1 r.local_column r.referenced_table,
          dset acc.2 r.local_column r.referenced_column)) m

/-- The equality-condition rendering shared verbatim by `check_record_exists`
(source lines 524-537) and `check_unique_constraint_violation` (lines
680-694): escaped-and-quoted strings, TRUE/FALSE booleans, quoted values for
column names containing `time`/`date`, raw `str(v)` otherwise. -/
def render_eq_condition (col : String) (v : Value) : String :=
  match v with
  | .str s => col ++ " = " ++ quoted (pyEscapeQuotes s)
  | .bool b => col ++ " = " ++ (if b then "TRUE" else "FALSE")
  | v2 =>
    if hasTimeOrDate col then col ++ " = " ++ quoted (pyStr v2)
    else col ++ " = " ++ pyStr v2

/-- The condition-building loops of the two check functions: one rendered
condition per column, aborting (Python `return False` / `has_all_columns =
False`) as soon as a column value is null. -/
def build_eq_conditions : List String → Record → Option (List String)
  | [], _ => some []
  | c :: rest, record =>
    match rget record c with
    | .null => none
    | v => (build_eq_conditions rest record).map (fun l => render_eq_condition c v :: l)

/-- `check_record_exists` (source lines 491-556).  An empty primary-key list,
a missing primary-key value, or a missing target connection (whose cursor
call raises and is caught) all yield `false`. -/
def check_record_exists (conn : Option TargetDb) (table : String)
    (pk_columns : List String) (record : Record) : Bool :=
  if pk_columns.isEmpty then false
  else
    match build_eq_conditions pk_columns record with
    | none => false
    | some conds =>
      match conn with
      | none => false
      | some db =>
        if conds.isEmpty then false
        else db.query_exists table (joinAnd conds)

/-- The hard-coded uniqueness registry of `check_unique_constraint_violation`
(source lines 658-669). -/
def unique_constraints : List (String × List (List String)) :=
  [("account.physical_account", [["custodian_account_id", "custodian_id"]]),
   ("account.virtual_account", [["account_id"]]),
   ("entity.entity", [["entity_id"]])]

/-- The constraint loop of `check_unique_constraint_violation`: skip a
constraint whose columns are not all present, otherwise ask the target
whether a row with those values exists. -/
def check_unique_aux (db : TargetDb) (table : String) (record : Record) :
    List (List String) → Bool
  | [] => false
  | cs :: rest =>
    match build_eq_conditions cs record with
    | none => check_unique_aux db table record rest
    | some conds =>
      if db.query_exists table (joinAnd conds) then true
      else check_unique_aux db table record rest

/-- `check_unique_constraint_violation` (source lines 619-716): tables absent
from the registry are never violations. -/
def check_unique_constraint_violation (db : TargetDb) (table : String)
    (record : Record) : Bool :=
  match dget? unique_constraints table with
  | none => false
  | some css => check_unique_aux db table record css

/-- `check_references_skipped_parent` (source lines 559-616): scan every
cascade-graph edge into this table; a non-null foreign-key value whose
stringification is registered for the parent table/column means the record
must be skipped. -/
def check_references_skipped_parent (table : String) (record : Record)
    (skipped_records : Registry) (cascade_graph : CascadeGraph) : Bool :=
  cascade_graph.any (fun p => p.2.any (fun e =>
    e.child_table == table &&
      (match rget record e.local_column with
       | .null => false
       | v => registry_mem skipped_records p.1 e.referenced_column (pyStr v))))

/-- Rendering of a foreign-key literal that is used as-is (source lines
920-923, 928-931, 936-939): strings are quoted without escaping. -/
def render_fk_actual : Value → String
  | .str s => quoted s
  | v => pyStr v

/-- The deferred-UPDATE fragment for an unresolved foreign key (source lines
944-960): strings quoted without escaping, TRUE/FALSE booleans, quoted
values for `time`/`date` column names, raw `str(v)` otherwise. -/
def fk_update_fragment (column : String) (v : Value) : String :=
  match v with
  | .str s => column ++ " = " ++ quoted s
  | .bool b => column ++ " = " ++ (if b then "TRUE" else "FALSE")
  | v2 =>
    if hasTimeOrDate column then column ++ " = " ++ quoted (pyStr v2)
    else column ++ " = " ++ pyStr v2

/-- The non-registry inputs of the foreign-key resolution chain. -/
structure FkCtx where
  parent_tables : List (String × String)
  parent_columns : List (String × String)
  processed_tables : List String
  prod_conn : Option TargetDb
deriving Inhabited

/-- The per-column foreign-key resolution of
`collect_insert_and_update_statements` (source lines 912-960), returning the
INSERT literal and the optional deferred-UPDATE fragment.  The Python
truthiness tests on `parent_table` / `parent_column` (non-None and non-empty)
are kept. -/
def fk_insert_literal_and_update (ctx : FkCtx) (restored_records : Registry)
    (column : String) (v : Value) : String × Option String :=
  let pt? := dget? ctx.parent_tables column
  let pc? := dget? ctx.parent_columns column
  let ruleA : Bool :=
    match pt? with
    | some pt => !(pt == "") && ctx.processed_tables.contains pt && !(vIsNull v)
    | none => false
  let ruleB : Bool :=
    match pt?, pc? with
    | some pt, some pc =>
        !(vIsNull v) && !(pt == "") && !(pc == "") &&
          registry_mem restored_records pt pc (pyStr v)
    | _, _ => false
  let ruleC : Bool :=
    match pt?, pc?, ctx.prod_conn with
    | some pt, some pc, some prod =>
        !(vIsNull v) && !(pt == "") && !(pc == "") && prod.exists_by_id pt (pyStr v) pc
    | _, _, _ => false
  if ruleA then (render_fk_actual v, none)
  else if ruleB then (render_fk_actual v, none)
  else if ruleC then (render_fk_actual v, none)
  else ("NULL",
    match v with
    | .null => none
    | v2 => some (fk_update_fragment column v2))

/-- `is_timestamp_column` (source lines 719-721). -/
def is_timestamp_column (column : String) (timestamp_columns : List String) : Bool :=
  timestamp_columns.contains column

/-- The non-foreign-key INSERT literal (source lines 962-985): NULL, booleans,
quoted-unescaped timestamp values, escaped-and-quoted strings, raw `str(v)`
otherwise — in that order of checks. -/
def non_fk_insert_literal (timestamp_columns : List String) (column : String)
    (v : Value) : String :=
  match v with
  | .null => "NULL"
  | .bool b => if b then "TRUE" else "FALSE"
  | v2 =>
    if is_timestamp_column column timestamp_columns then quoted (pyStr v2)
    else
      match v2 with
      | .str s => quoted (pyEscapeQuotes s)
      | v3 => pyStr v3

/-- The WHERE fragment contributed by a non-null non-foreign-key column
(source lines 987-1005). -/
def non_fk_where_fragment (timestamp_columns : List String) (column : String)
    (v : Value) : Option String :=
  match v with
  | .null => none
  | .bool b => some (column ++ " = " ++ (if b then "TRUE" else "FALSE"))
  | v2 =>
    if is_timestamp_column column timestamp_columns then
      some (column ++ " = " ++ quoted (pyStr v2))
    else
      match v2 with
      | .str s => some (column ++ " = " ++ quoted (pyEscapeQuotes s))
      | v3 => some (column ++ " = " ++ pyStr v3)

/-- Everything the per-column loop of the pipeline consults besides the live
registries. -/
structure ColCtx where
  fk : FkCtx
  fk_columns : List String
  timestamp_columns : List String

/-- The `insert_values` list built by the per-column loop: exactly one
literal per column of `all_columns`, via the foreign-key chain or the
non-foreign-key rendering. -/
def record_insert_values (c : ColCtx) (restored_records : Registry) (record : Record)
    (cols : List String) : List String :=
  cols.map (fun col =>
    if c.fk_columns.contains col then
      (fk_insert_literal_and_update c.fk restored_records col (rget record col)).1
    else non_fk_insert_literal c.timestamp_columns col (rget record col))

/-- The `update_sets` list built by the per-column loop: the deferred
fragments of unresolved foreign-key columns, in column order. -/
def record_update_sets (c : ColCtx) (restored_records : Registry) (record : Record)
    (cols : List String) : List String :=
  cols.filterMap (fun col =>
    if c.fk_columns.contains col then
      (fk_insert_literal_and_update c.fk restored_records col (rget record col)).2
    else none)

/-- The `where_conditions` list built by the per-column loop: one fragment per
non-null non-foreign-key column, in column order. -/
def record_where_conditions (c : ColCtx) (record : Record) (cols : List String) :
    List String :=
  cols.filterMap (fun col =>
    if c.fk_columns.contains col then none
    else non_fk_where_fragment c.timestamp_columns col (rget record col))

/-- Statement kinds. -/
inductive StmtType where
  | insert
  | update
deriving DecidableEq

/-- A `RestorationStatement` as the source builds it (lines 1062-1069 for
INSERTs, 1105-1111 for UPDATEs): absent dict keys are defaulted to empty. -/
structure Stmt where
  type : StmtType
  table : String
  statement : String
  columns : List String := []
  values : List (String × Value) := []
  record_data : List (String × Value) := []
  updates : List (String × String) := []
  where_data : List (String × String) := []
  optimized : Bool := false
deriving DecidableEq

/-- The INSERT statement text (source lines 1024-1036), with the optional
`ON CONFLICT DO NOTHING` suffix of conflict-resolution mode. -/
def insert_statement_text (table : String) (columns values : List String)
    (use_conflict_resolution : Bool) : String :=
  if use_conflict_resolution then
    "INSERT INTO " ++ table ++ " (" ++ joinComma columns ++ ") VALUES (" ++
      joinComma values ++ ") ON CONFLICT DO NOTHING;"
  else
    "INSERT INTO " ++ table ++ " (" ++ joinComma columns ++ ") VALUES (" ++
      joinComma values ++ ");"

/-- The fragment re-parsing into `update_data` / `where_data` dicts (source
lines 1089-1103): split each fragment at the first ` = `, strip whitespace,
then strip all boundary quotes from the value. -/
def parse_set_fragments (fragments : List String) : List (String × String) :=
  fragments.foldl (fun acc frag =>
    match pySplitFirst frag " = " with
    | some (c, v) => dset acc (pyStrip c) (pyStripQuotes (pyStrip v))
    | none => acc) []

/-- The four pieces of state `collect_insert_and_update_statements` mutates. -/
structure CollectState where
  insert_statements_seen : List String
  restored_records : Registry
  skipped_records : Registry
  statement_buffer : List Stmt
deriving DecidableEq

/-- The body of the per-record loop of `collect_insert_and_update_statements`
(source lines 905-1112): build the three per-column lists, run the three
checks (all skipped in conflict-resolution mode), then branch — drop existing
rows, drop rows referencing skipped parents, record uniqueness victims into
the skip registry, emit unseen INSERTs (recording restored primary keys), and
finally emit the companion UPDATE whenever fragments exist, the row does not
pre-exist and its INSERT text is in the seen set. -/
def process_record (table : String) (cctx : ColCtx) (all_columns pk_columns : List String)
    (cascade_graph : CascadeGraph) (prod_conn : Option TargetDb)
    (use_conflict_resolution : Bool) (s : CollectState) (record : Record) : CollectState :=
  let insert_values := record_insert_values cctx s.restored_records record all_columns
  let update_sets := record_update_sets cctx s.restored_records record all_columns
  let where_conditions := record_where_conditions cctx record all_columns
  let checks :=
    if use_conflict_resolution then (false, false, false)
    else
      let refs := check_references_skipped_parent table record s.skipped_records cascade_graph
      let ex := check_record_exists prod_conn table pk_columns record
      let uniq :=
        if !ex then
          match prod_conn with
          | some prod => check_unique_constraint_violation prod table record
          | none => false
        else false
      (ex, refs, uniq)
  let record_exists := checks.1
  let references_skipped_parent := checks.2.1
  let unique_violation := checks.2.2
  let insert_statement :=
    insert_statement_text table all_columns insert_values use_conflict_resolution
  let s1 :=
    if record_exists then s
    else if references_skipped_parent then s
    else if unique_violation then
      { s with skipped_records := add_pk_values s.skipped_records table pk_columns record }
    else if !(s.insert_statements_seen.contains insert_statement) then
      { s with
        insert_statements_seen := s.insert_statements_seen ++ [insert_statement],
        statement_buffer := s.statement_buffer ++
          [{ type := .insert, table := table, statement := insert_statement,
             columns := all_columns,
             values := all_columns.map (fun c => (c, rget record c)),
             record_data := record }],
        restored_records := add_pk_values s.restored_records table pk_columns record }
    else s
  if !update_sets.isEmpty && !where_conditions.isEmpty && !record_exists &&
      s1.insert_statements_seen.contains insert_statement then
    { s1 with statement_buffer := s1.statement_buffer ++
      [{ type := .update, table := table,
         statement := "UPDATE " ++ table ++ " SET " ++ joinComma update_sets ++
           " WHERE " ++ joinAnd where_conditions ++ ";",
         updates := parse_set_fragments update_sets,
         where_data := parse_set_fragments where_conditions }] }
  else s1

/-- `collect_insert_and_update_statements` (source lines 795-1114): an empty
record list changes nothing; otherwise look up the primary key, build the
foreign-key parent maps, and fold the per-record body over the records. -/
def collect_insert_and_update_statements (restore_conn : SourceDb)
    (prod_current_conn : Option TargetDb) (table : String) (records : List Record)
    (fk_columns all_columns : List String) (cascade_graph : CascadeGraph)
    (processed_tables : List String) (timestamp_columns : List String)
    (use_conflict_resolution : Bool) (s : CollectState) : CollectState :=
  if records.isEmpty then s
  else
    let pk_columns := get_primary_key_columns_from_constraints restore_conn table
    let maps := fk_parent_maps cascade_graph
      (get_all_foreign_key_relationships restore_conn table) table
    let cctx : ColCtx :=
      ⟨⟨maps.1, maps.2, processed_tables, prod_current_conn⟩, fk_columns, timestamp_columns⟩
    records.foldl (process_record table cctx all_columns pk_columns cascade_graph
      prod_current_conn use_conflict_resolution) s

/-! ## The statement optimizer -/
/-- `records_match` (source lines 1656-1665): an UPDATE targets the same
record as an INSERT when, for every WHERE column, `str` of the INSERT's value
equals the (already stringified) WHERE value. -/
def records_match (insert_stmt update_stmt : Stmt) : Bool :=
  update_stmt.where_data.all (fun p => pyStr (rget insert_stmt.values p.1) == p.2)

/-- The value rendering of the merged INSERT (source lines 1685-1695): null,
TRUE/FALSE, escaped-and-quoted strings, `str(v)` otherwise. -/
def merge_render_literal (v : Value) : String :=
  match v with
  | .null => "NULL"
  | .bool b => if b then "TRUE" else "FALSE"
  | .str s => quoted (pyEscapeQuotes s)
  | v => pyStr v

/-- `merge_insert_update` (source lines 1668-1708): overlay the UPDATE's
assignments (slicing off a simple quote pair if present) onto the INSERT's
values, then re-render the INSERT over its column list. -/
def merge_insert_update (insert_stmt update_stmt : Stmt) : Stmt :=
  let merged := update_stmt.updates.foldl (fun acc p =>
    let v := p.2
    let v2 := if startsWithQuote v && endsWithQuote v then pySliceOneToLast v else v
    dset acc p.1 (Value.str v2)) insert_stmt.values
  let values_list := insert_stmt.columns.map (fun col => merge_render_literal (rget merged col))
  { type := .insert, table := insert_stmt.table,
    statement := "INSERT INTO " ++ insert_stmt.table ++ " (" ++
      joinComma insert_stmt.columns ++ ") VALUES (" ++ joinComma values_list ++ ");",
    columns := insert_stmt.columns, values := merged, optimized := true }

/-- One step of the by-table grouping of `optimize_statements` (source lines
1602-1612). -/
def group_step (acc : List (String × (List Stmt × List Stmt))) (stmt : Stmt) :
    List (String × (List Stmt × List Stmt)) :=
  let cur := (dget? acc stmt.table).getD ([], [])
  let cur2 :=
    match stmt.type with
    | .insert => (cur.1 ++ [stmt], cur.2)
    | .update => (cur.1, cur.2 ++ [stmt])
  dset acc stmt.table cur2

/-- The by-table grouping of `optimize_statements` (source lines 1602-1612):
a dict from table to its INSERT and UPDATE statements in buffer order. -/
def group_statements_by_table (statement_buffer : List Stmt) :
    List (String × (List Stmt × List Stmt)) :=
  statement_buffer.foldl group_step []

/-- The inner search of `optimize_statements` (source lines 1628-1636): the
first not-yet-used UPDATE index matching this INSERT. -/
def find_matching_update (insert_stmt : Stmt) (used : List Nat) :
    List Stmt → Nat → Option (Nat × Stmt)
  | [], _ => none
  | u :: rest, i =>
    if !(used.contains i) && records_match insert_stmt u then some (i, u)
    else find_matching_update insert_stmt used rest (i + 1)

/-- The per-table matching pass (source lines 1620-1644): fold over the
INSERTs, merging each with its first unused matching UPDATE and collecting
the used indices. -/
def match_pass (inserts updates : List Stmt) : List Stmt × List Nat :=
  inserts.foldl (fun (acc : List Stmt × List Nat) ins =>
    match find_matching_update ins acc.2 updates 0 with
    | some (i, u) => (acc.1 ++ [merge_insert_update ins u], acc.2 ++ [i])
    | none => (acc.1 ++ [ins], acc.2)) ([], [])

/-- The unmatched UPDATEs appended after the pass (source lines 1648-1651). -/
def unmatched_updates (updates : List Stmt) (used : List Nat) : List Stmt :=
  (updates.enum.filter (fun p => !(used.contains p.1))).map (·.2)

/-- `optimize_statements` (source lines 1599-1653): per table (in first-seen
order), the merged/kept INSERTs followed by every unmatched UPDATE. -/
def optimize_statements (statement_buffer : List Stmt) : List Stmt :=
  (group_statements_by_table statement_buffer).foldl (fun acc p =>
    let mp := match_pass p.2.1 p.2.2
    acc ++ mp.1 ++ unmatched_updates p.2.2 mp.2) []

/-! ## The NULL-foreign-key resolver -/
/-- The primary-key column-name patterns of `fix_null_foreign_keys` (source
line 1787). -/
def pk_candidates : List String := ["id", "account_id", "entity_id", "person_id", "group_id"]

/-- The per-record key search of `fix_null_foreign_keys` (source lines
1788-1794): the cleaned value of the first column whose lowercased name
contains one of the patterns and whose value is truthy and not the string
NULL. -/
def find_pk_key : List (String × Value) → Option Value
  | [] => none
  | (col, v) :: rest =>
    if pk_candidates.any (fun pk => strContains (strLower col) pk) &&
        pyTruthy v && !(v == Value.str "NULL") then
      some (match v with
        | .str s => if startsWithQuote s then Value.str (pyStripQuotes s) else Value.str s
        | v2 => v2)
    else find_pk_key rest

/-- The `inserted_records` map of `fix_null_foreign_keys` (source lines
1774-1794): table → cleaned key → the INSERT's values; the table entry is
created for every INSERT even when no key column is found. -/
def fix_inserted_records (statements : List Stmt) :
    List (String × List (Value × List (String × Value))) :=
  statements.foldl (fun acc stmt =>
    match stmt.type with
    | .insert =>
      let acc1 := if dmem acc stmt.table then acc else dset acc stmt.table []
      match find_pk_key stmt.values with
      | some key =>
        let m := (dget? acc1 stmt.table).getD []
        dset acc1 stmt.table (dset m key stmt.values)
      | none => acc1
    | .update => acc) []

/-- The foreign-key-edge search of `fix_null_foreign_keys` (source lines
1810-1820): the first cascade-graph edge into this table on this column with
a truthy parent name. -/
def fix_parent_for (fk_graph : CascadeGraph) (table col : String) :
    Option (String × String) :=
  fk_graph.findSome? (fun p =>
    p.2.findSome? (fun e =>
      if e.child_table = table ∧ e.local_column = col ∧ p.1 ≠ "" then
        some (p.1, e.referenced_column)
      else none))

/-- The value re-rendering of the regenerated INSERT (source lines 1843-1859):
None and the string NULL render as NULL; strings already wrapped in quotes
are kept, other strings are quoted without escaping; TRUE/FALSE booleans;
numbers as `str(v)`. -/
def fix_render (v : Value) : String :=
  if v = Value.null ∨ pyStr v = "NULL" then "NULL"
  else
    match v with
    | .str s => if startsWithQuote s && endsWithQuote s then s else quoted s
    | .bool b => if b then "TRUE" else "FALSE"
    | .int n => toString n
    | .null => "NULL"

/-- `fix_null_foreign_keys` (source lines 1711-1871): build the inserted-record
map, then, for every INSERT, replace each NULL-valued column that is a known
foreign key of a table being restored with the quoted first key of that
parent table, and regenerate the statement text from the (possibly fixed)
values; UPDATEs pass through untouched. -/
def fix_null_foreign_keys (statements : List Stmt) (fk_graph : CascadeGraph) :
    List Stmt :=
  let inserted_records := fix_inserted_records statements
  statements.map (fun stmt =>
    match stmt.type with
    | .update => stmt
    | .insert =>
      let values2 := stmt.values.map (fun p =>
        if p.2 = Value.str "NULL" ∨ p.2 = Value.null then
          match fix_parent_for fk_graph stmt.table p.1 with
          | some (parent_table, _) =>
            match dget? inserted_records parent_table with
            | some m =>
              match m.head? with
              | some first => (p.1, Value.str (quoted (pyStr first.1)))
              | none => p
            | none => p
          | none => p
        else p)
      { stmt with
        values := values2
        statement := "INSERT INTO " ++ stmt.table ++ " (" ++
          joinComma (values2.map (·.1)) ++ ") VALUES (" ++
          joinComma (values2.map (fun p => fix_render p.2)) ++ ");" })

/-! ## Emission -/
/-- State of the quote/parenthesis-aware VALUES parser of
`filter_computed_columns_from_statement` (source lines 1904-1924). -/
structure ValuesParseState where
  values : List String
  current : List Char
  in_quotes : Bool
  paren_depth : Int

/-- One character step of the VALUES parser: toggle quoting on an unescaped
quote, track parenthesis depth outside quotes, split on top-level commas
(stripping the piece), and append every other character (including the
quotes and parentheses themselves). -/
def values_parse_step (st : ValuesParseState) (c : Char) : ValuesParseState :=
  if c = Char.ofNat 39 && (st.current.isEmpty || !(st.current.getLast? == some bslash)) then
    { st with in_quotes := !st.in_quotes, current := st.current ++ [c] }
  else if c = Char.ofNat 40 && !st.in_quotes then
    { st with paren_depth := st.paren_depth + 1, current := st.current ++ [c] }
  else if c = Char.ofNat 41 && !st.in_quotes then
    { st with paren_depth := st.paren_depth - 1, current := st.current ++ [c] }
  else if c = Char.ofNat 44 && !st.in_quotes && st.paren_depth = 0 then
    { st with values := st.values ++ [pyStrip (String.mk st.current)], current := [] }
  else
    { st with current := st.current ++ [c] }

/-- The full VALUES-text parse: run the character loop, then append the final
piece when its stripped form is non-empty. -/
def parse_values_text (s : String) : List String :=
  let st := s.data.foldl values_parse_step ⟨[], [], false, 0⟩
  if pyStrip (String.mk st.current) = "" then st.values
  else st.values ++ [pyStrip (String.mk st.current)]

/-- Python `s.split(sep)` (all occurrences, left to right); `sep` is assumed
non-empty, as at both call sites.  Implemented with fuel equal to the string
length, which bounds the number of splits. -/
def pySplitAllAux (sep : List Char) : Nat → List Char → List (List Char)
  | 0, l => [l]
  | fuel + 1, l =>
    match charsSplitFirst l sep with
    | none => [l]
    | some (pre, post) => pre :: pySplitAllAux sep fuel post

/-- Python `s.split(sep)`. -/
def pySplitAll (s sep : String) : List String :=
  (pySplitAllAux sep.data (s.data.length + 1) s.data).map String.mk

/-- Python `s.find(c)` on a single character: index of first occurrence or
none (the source checks `== -1`). -/
def strFindChar (s : String) (c : Char) : Option Nat :=
  s.data.findIdx? (fun d => d = c)

/-- Python `s.rfind(c)`: index of the last occurrence. -/
def strRFindChar (s : String) (c : Char) : Option Nat :=
  (s.data.reverse.findIdx? (fun d => d = c)).map (fun i => s.data.length - 1 - i)

/-- Python slice `s[i:j]`. -/
def strSlice (s : String) (i j : Nat) : String :=
  String.mk ((s.data.drop i).take (j - i))

/-- Python slice `s[:i]`. -/
def strTake (s : String) (i : Nat) : String := String.mk (s.data.take i)

/-- `filter_computed_columns_from_statement` (source lines 1874-1945): for an
INSERT, split around the first two VALUES occurrences, parse the column list
and the quote-aware value list, drop `crdb_internal_`-prefixed columns, and
rebuild the statement only when something was dropped; every parse failure
(including the IndexError of a statement without VALUES, caught by the
enclosing except) returns the statement unchanged. -/
def filter_computed_columns_from_statement (statement : String) : String :=
  if !(strStartsWith statement "INSERT INTO") then statement
  else
    match pySplitAll statement "VALUES" with
    | p0 :: p1 :: _ =>
      let insert_part := pyStrip p0
      let values_part := pyStrip p1
      match strFindChar insert_part (Char.ofNat 40), strFindChar insert_part (Char.ofNat 41) with
      | some columns_start, some columns_end =>
        let table_part := pyStrip (strTake insert_part columns_start)
        let columns_text := strSlice insert_part (columns_start + 1) columns_end
        let columns := (pySplitAll columns_text ",").map pyStrip
        match strFindChar values_part (Char.ofNat 40), strRFindChar values_part (Char.ofNat 41) with
        | some values_start, some values_end =>
          let values_text := strSlice values_part (values_start + 1) values_end
          let values := parse_values_text values_text
          let filtered := (columns.enum.filter (fun p =>
            !(strStartsWith p.2 "crdb_internal_") && p.1 < values.length)).map
            (fun p => (p.2, values.getD p.1 ""))
          if filtered.length ≠ columns.length then
            table_part ++ "(" ++ joinComma (filtered.map (·.1)) ++ ") VALUES (" ++
              joinComma (filtered.map (·.2)) ++ ");"
          else statement
        | _, _ => statement
      | _, _ => statement
    | _ => statement

/-- `write_statements_to_file` (source lines 1948-1970), rendered as the list
of emitted script lines: statements grouped by table in first-seen order,
each group headed by a comment with its INSERT count, each statement passed
through the computed-column filter. -/
def write_statements_lines (statements : List Stmt) : List String :=
  let tables := statements.foldl (fun acc stmt =>
    dset acc stmt.table ((dget? acc stmt.table).getD [] ++ [stmt])) []
  tables.foldl (fun acc p =>
    let insert_count := (p.2.filter (fun st => st.type == StmtType.insert)).length
    acc ++ ("-- " ++ p.1 ++ ": " ++ toString insert_count ++ " records") ::
      p.2.map (fun st => filter_computed_columns_from_statement st.statement)) []

/-! ## The person.person row preparation inside the traversal -/
/-- The standard base64 alphabet. -/
def b64_alphabet : List Char :=
  ((List.range 26).map (fun i => Char.ofNat (65 + i))) ++
  ((List.range 26).map (fun i => Char.ofNat (97 + i))) ++
  ((List.range 10).map (fun i => Char.ofNat (48 + i))) ++
  [Char.ofNat 43, Char.ofNat 47]

/-- The base64 digit for a 6-bit value. -/
def b64_char (n : Nat) : Char := b64_alphabet.getD n (Char.ofNat 65)

/-- Standard base64 encoding of a byte list, with `=` padding. -/
def b64_encode_bytes : List UInt8 → List Char
  | [] => []
  | [a] =>
    let x := a.toNat
    [b64_char (x / 4), b64_char ((x % 4) * 16), Char.ofNat 61, Char.ofNat 61]
  | [a, b] =>
    let x := a.toNat
    let y := b.toNat
    [b64_char (x / 4), b64_char ((x % 4) * 16 + y / 16), b64_char ((y % 16) * 4),
     Char.ofNat 61]
  | a :: b :: c :: rest =>
    let x := a.toNat
    let y := b.toNat
    let z := c.toNat
    [b64_char (x / 4), b64_char ((x % 4) * 16 + y / 16),
     b64_char ((y % 16) * 4 + z / 64), b64_char (z % 64)] ++ b64_encode_bytes rest

/-- Python `base64.b64encode(s.encode()).decode()`. -/
def b64_encode_utf8 (s : String) : String := String.mk (b64_encode_bytes s.toUTF8.toList)

/-- Whether a character belongs to the base64 alphabet. -/
def is_b64_char (c : Char) : Bool := b64_alphabet.contains c

/-- Models whether `base64.b64decode(s)` succeeds: the lenient decoder
discards characters outside the alphabet-plus-padding set and fails only on
incomplete padding, i.e. when the remaining length is not a multiple of
four. -/
def py_b64_valid (s : String) : Bool :=
  let kept := s.data.filter (fun c => is_b64_char c || c = Char.ofNat 61)
  kept.length % 4 == 0

/-- The person.person TIN normalisation (source lines 1342-1365) for the
representable (string) case: a string decodable as base64 is kept unchanged
(both length branches keep it), anything else is re-encoded; the
memoryview/bytes branches concern binary values, which reach the pipeline
already base64-encoded in this embedding. -/
def person_transform_record (r : Record) : Record :=
  match rget r "tin" with
  | .str s => if py_b64_valid s then r else dset r "tin" (.str (b64_encode_utf8 s))
  | _ => r

/-- The person.person email acceptance rule (source lines 1367-1371): drop a
record whose email is falsy, or is a string that strips to empty. -/
def person_email_ok (r : Record) : Bool :=
  let e := rget r "email"
  !(!pyTruthy e || (match e with
    | .str s => pyStrip s == ""
    | _ => false))

/-- The person.person pre-processing of the traversal (source lines
1339-1375): normalise each record's TIN, then keep only records with an
acceptable email. -/
def person_filter_records (records : List Record) : List Record :=
  (records.map person_transform_record).filter person_email_ok

/-! ## Affected-record discovery (the breadth-first traversal) -/
/-- A queue item of the traversal. -/
structure QItem where
  table : String
  conditions : String
  level : Nat
deriving DecidableEq

/-- Ghost trace of the traversal: one entry per executed
`SELECT * FROM table WHERE conditions`, with the level and the number of rows
returned.  The trace is write-only instrumentation: no engine decision reads
it. -/
structure TraceEntry where
  table : String
  conditions : String
  level : Nat
  record_count : Nat
deriving DecidableEq

/-- One entry of the `affected_records` summary dict (source lines
1384-1388). -/
structure AffectedEntry where
  record_count : Nat
  conditions : String
  level : Nat
deriving DecidableEq

/-- The mutable state of `find_affected_records_iteratively` (source lines
1264-1289), plus the ghost trace. -/
structure BfsState where
  affected_records : List (String × AffectedEntry)
  visited_tables : List String
  processed_tables : List String
  insert_statements_seen : List String
  restored_records : Registry
  skipped_records : Registry
  statement_buffer : List Stmt
  level_stats : List (Nat × Nat)
  queue : List QItem
  trace : List TraceEntry
deriving DecidableEq

/-- The body of the while loop of `find_affected_records_iteratively` (source
lines 1291-1443), for one dequeued item (the caller has already popped it
from the queue): skip already-visited (table, conditions) keys; run the
SELECT; on zero rows record nothing and enqueue nothing (`continue`);
otherwise run the pipeline over the (person-filtered) rows, mark the table
processed, overwrite its affected-records entry, bump the level statistics
and enqueue one child item per cascade edge with the synthesised IN-subquery
predicate.  (The binary-to-base64 normalisation of lines 1330-1337 is the
identity here, binary values being represented by their base64 strings; a
per-table query error behaves like the zero-row branch, which the `select`
oracle's answer subsumes.) -/
def process_item (restore_conn : SourceDb) (prod_current_conn : Option TargetDb)
    (cascade_graph : CascadeGraph) (use_conflict_resolution : Bool)
    (s : BfsState) (item : QItem) : BfsState :=
  let key := item.table ++ "::" ++ item.conditions
  if s.visited_tables.contains key then s
  else
    let s1 := { s with visited_tables := s.visited_tables ++ [key] }
    let records := restore_conn.select item.table item.conditions
    let s2 := { s1 with trace := s1.trace ++
      [⟨item.table, item.conditions, item.level, records.length⟩] }
    if records.length = 0 then s2
    else
      let all_columns := get_table_columns restore_conn item.table
      let fk_columns := get_foreign_key_columns restore_conn item.table cascade_graph
      let timestamp_columns := get_table_timestamp_columns restore_conn item.table
      let record_dicts :=
        if item.table = "person.person" then person_filter_records records else records
      let cs := collect_insert_and_update_statements restore_conn prod_current_conn
        item.table record_dicts fk_columns all_columns cascade_graph s2.processed_tables
        timestamp_columns use_conflict_resolution
        ⟨s2.insert_statements_seen, s2.restored_records, s2.skipped_records,
         s2.statement_buffer⟩
      let s3 := { s2 with
        insert_statements_seen := cs.insert_statements_seen
        restored_records := cs.restored_records
        skipped_records := cs.skipped_records
        statement_buffer := cs.statement_buffer
        processed_tables := setAdd s2.processed_tables item.table
        affected_records := dset s2.affected_records item.table
          ⟨records.length, item.conditions, item.level⟩
        level_stats := dset s2.level_stats item.level
          ((dget? s2.level_stats item.level).getD 0 + records.length) }
      let new_items := (children_of cascade_graph item.table).map (fun e =>
        let parent_values_query := "SELECT DISTINCT " ++ e.referenced_column ++ " FROM " ++
          item.table ++ " WHERE " ++ item.conditions
        let cond :=
          if strContains e.local_column "," then
            "(" ++ e.local_column ++ ") IN (" ++ parent_values_query ++ ")"
          else e.local_column ++ " IN (" ++ parent_values_query ++ ")"
        QItem.mk e.child_table cond (item.level + 1))
      { s3 with queue := s3.queue ++ new_items }

/-- The while loop of the traversal.  The Python loop terminates only when
the queue empties (on a cyclic graph with non-empty results it would not);
the embedding bounds the number of iterations with fuel, which leaves every
completed run unchanged. -/
def bfs_loop (restore_conn : SourceDb) (prod_current_conn : Option TargetDb)
    (cascade_graph : CascadeGraph) (use_conflict_resolution : Bool) :
    Nat → BfsState → BfsState
  | 0, s => s
  | fuel + 1, s =>
    match s.queue with
    | [] => s
    | item :: rest =>
      bfs_loop restore_conn prod_current_conn cascade_graph use_conflict_resolution fuel
        (process_item restore_conn prod_current_conn cascade_graph
          use_conflict_resolution { s with queue := rest } item)

/-! ## Missing-parent discovery -/
/-- The reference-collection phase of `discover_missing_parent_records`
(source lines 1479-1522): for every buffered INSERT and every catalogued
foreign key of its table, a non-null value (and not the string NULL) whose
parent is absent from the target database but present in the source database
becomes a candidate `(table, column, str(value))` key.  The per-table and
per-key caches memoise pure oracle calls and are dropped; the Python `set` is
determinised to insertion order, which nothing downstream observes. -/
def discover_candidates (restore_conn : SourceDb) (prod : TargetDb)
    (statement_buffer : List Stmt) : List (String × String × String) :=
  statement_buffer.foldl (fun acc stmt =>
    match stmt.type with
    | .insert =>
      (get_all_foreign_key_relationships restore_conn stmt.table).foldl (fun acc2 rel =>
        let v := rget stmt.values rel.local_column
        if v ≠ Value.null ∧ v ≠ Value.str "NULL" then
          let key := (rel.referenced_table, rel.referenced_column, pyStr v)
          if !(prod.exists_by_id rel.referenced_table (pyStr v) rel.referenced_column) &&
              restore_conn.exists_by_id rel.referenced_table (pyStr v)
                rel.referenced_column then
            if acc2.contains key then acc2 else acc2 ++ [key]
          else acc2
        else acc2) acc
    | .update => acc) []

/-- `discover_missing_parent_records` (source lines 1471-1596).  Without a
target connection it returns 0 at once.  With one, it collects the candidate
keys and loops over them — but each iteration only performs reads (the
buffer scan and the parent SELECT) before the pipeline call at lines
1567-1570, whose argument list names `use_conflict_resolution`, a variable
that is not bound in this function and is not a module global; evaluating it
raises a NameError, the `except Exception` at line 1591 catches it, and the
loop continues.  So no iteration adds parent statements, prepends to the
buffer, updates `affected_records` or increments the count: the function
returns 0 with its inputs unchanged. -/
def discover_missing_parent_records (restore_conn : SourceDb)
    (prod_current_conn : Option TargetDb) (_cascade_graph : CascadeGraph)
    (statement_buffer : List Stmt)
    (affected_records : List (String × AffectedEntry)) :
    Nat × List Stmt × List (String × AffectedEntry) :=
  match prod_current_conn with
  | none => (0, statement_buffer, affected_records)
  | some prod =>
    (discover_candidates restore_conn prod statement_buffer).foldl
      (fun acc _ => acc) (0, statement_buffer, affected_records)

/-- What a full run returns and leaves behind. -/
structure RunResult where
  affected_records : List (String × AffectedEntry)
  final_statements : List Stmt
  state : BfsState

/-- `find_affected_records_iteratively` (source lines 1117-1468): seed the
queue with the root item, run the traversal, run missing-parent discovery
over the buffer, then the optimizer and the NULL-foreign-key passes, and
return the affected-records summary together with the final statement list
(which `write_statements_to_file` renders).  The interactive VPN/connection
re-establishment block (lines 1207-1262) performs operator I/O and at most
replaces the target connection with an equivalent one; the embedding keeps
the given connection. -/
def find_affected_records_iteratively (restore_conn : SourceDb)
    (prod_current_conn : Option TargetDb) (cascade_graph : CascadeGraph)
    (start_table start_conditions : String) (use_conflict_resolution : Bool)
    (fuel : Nat) : RunResult :=
  let init : BfsState :=
    ⟨[], [], [], [], [], [], [], [], [⟨start_table, start_conditions, 0⟩], []⟩
  let s := bfs_loop restore_conn prod_current_conn cascade_graph
    use_conflict_resolution fuel init
  let d := discover_missing_parent_records restore_conn prod_current_conn cascade_graph
    s.statement_buffer s.affected_records
  let optimized := optimize_statements d.2.1
  let fixed := fix_null_foreign_keys optimized cascade_graph
  ⟨d.2.2, fixed, { s with statement_buffer := d.2.1, affected_records := d.2.2 }⟩

/-! ## Claim C4: the ordered foreign-key resolution chain -/
/-- Modelled from the spec (§4.4 step 3a): the column's known, truthy parent
table was already fully processed earlier in this run, and there is a value
to use. -/
def spec_rule_a (ctx : FkCtx) (column : String) (v : Value) : Bool :=
  ((dget? ctx.parent_tables column).any
    (fun pt => !(pt == "") && ctx.processed_tables.contains pt)) && !(vIsNull v)

/-- Modelled from the spec (§4.4 step 3b): the value is already present in
the RestoredRegistry for the parent table/column. -/
def spec_rule_b (ctx : FkCtx) (restored_records : Registry) (column : String)
    (v : Value) : Bool :=
  !(vIsNull v) &&
    ((dget? ctx.parent_tables column).any (fun pt => !(pt == "") &&
      ((dget? ctx.parent_columns column).any (fun pc => !(pc == "") &&
        registry_mem restored_records pt pc (pyStr v)))))

/-- Modelled from the spec (§4.4 step 3c): a target connection is available
and confirms the value exists in the parent table/column. -/
def spec_rule_c (ctx : FkCtx) (column : String) (v : Value) : Bool :=
  !(vIsNull v) &&
    (ctx.prod_conn.any (fun prod =>
      (dget? ctx.parent_tables column).any (fun pt => !(pt == "") &&
        ((dget? ctx.parent_columns column).any (fun pc => !(pc == "") &&
          prod.exists_by_id pt (pyStr v) pc)))))

/-- Modelled from the spec (§4.4 step 3): the short-circuiting ordered chain —
the first applicable of rules (a), (b), (c) uses the actual value as the
INSERT literal with no deferred fragment; otherwise (d) places NULL and, for
a non-null value, queues the deferred UPDATE fragment carrying it. -/
def spec_fk_decision (ctx : FkCtx) (restored_records : Registry) (column : String)
    (v : Value) : String × Option String :=
  if spec_rule_a ctx column v then (render_fk_actual v, none)
  else if spec_rule_b ctx restored_records column v then (render_fk_actual v, none)
  else if spec_rule_c ctx column v then (render_fk_actual v, none)
  else ("NULL", if vIsNull v then none else some (fk_update_fragment column v))

/-! ## Claim C6: string escaping in rendered statements -/
/-- A string value containing a single quote. -/
def c6_obrien : String := "O" ++ sq ++ "Brien"

def c6_src : SourceDb :=
  { select := fun _ _ => [], select_by_column := fun _ _ _ => [],
    table_columns := fun _ => ["a", "fk"], timestamp_columns := fun _ => [],
    all_fk_relationships := fun _ => [], pk_columns := fun _ => [],
    exists_by_id := fun _ _ _ => false }

def c6_graph : CascadeGraph := [("p", [⟨"t", "fk", "id"⟩])]

def c6_record : Record := [("a", .str "x"), ("fk", .str c6_obrien)]

def c6_result : CollectState :=
  collect_insert_and_update_statements c6_src none "t" [c6_record]
    (get_foreign_key_columns c6_src "t" c6_graph) ["a", "fk"] c6_graph ["p"] []
    false ⟨[], [], [], []⟩

/-- The statement text the run produces: the foreign-key string is quoted
without doubling its embedded quote. -/
def c6_stmt_text : String :=
  "INSERT INTO t (a, fk) VALUES (" ++ quoted "x" ++ ", " ++ quoted c6_obrien ++ ");"

def c6_witness_ts : List String := ["created_at_col"]

/-! ## Claim C5: unmatched UPDATEs after the optimizer pass -/
def c5_insert : Stmt :=
  { type := .insert, table := "t",
    statement := "INSERT INTO t (b) VALUES (" ++ quoted "3" ++ ");",
    columns := ["b"], values := [("b", .str "3")] }

def c5_orphan_update : Stmt :=
  { type := .update, table := "t",
    statement := "UPDATE t SET a = " ++ quoted "1" ++ " WHERE b = " ++ quoted "2" ++ ";",
    updates := [("a", "1")], where_data := [("b", "2")] }

def c10_example_db : TargetDb :=
  { exists_by_id := fun _ _ _ => true, query_exists := fun _ _ => true }

def c10_example_src : SourceDb :=
  { select := fun _ _ => [], select_by_column := fun _ _ _ => [],
    table_columns := fun _ => ["a"], timestamp_columns := fun _ => [],
    all_fk_relationships := fun _ => [], pk_columns := fun _ => ["a"],
    exists_by_id := fun _ _ _ => false }

def c10_example_record : Record := [("a", Value.str "1")]

/-! ## Claim C2: the SkipRegistry and cascade-skipping -/
def c2_src : SourceDb :=
  { select := fun _ _ => [], select_by_column := fun _ _ _ => [],
    table_columns := fun _ => [],
    timestamp_columns := fun _ => [],
    all_fk_relationships := fun _ => [],
    pk_columns := fun t => if t = "account.physical_account" then ["account_id"] else [],
    exists_by_id := fun _ _ _ => false }

def c2_prod : TargetDb :=
  { exists_by_id := fun _ _ _ => false,
    query_exists := fun t w =>
      t = "account.physical_account" &&
        w = ("custodian_account_id = " ++ quoted "123" ++ " AND custodian_id = 4") }

def c2_graph : CascadeGraph :=
  [("account.physical_account",
    [⟨"account.physical_account", "parent_ref", "account_id"⟩])]

def c2_record_a : Record :=
  [("account_id", .str "A"), ("custodian_account_id", .str "999"),
   ("custodian_id", .int 4), ("parent_ref", .str "B")]

def c2_record_b : Record :=
  [("account_id", .str "B"), ("custodian_account_id", .str "123"),
   ("custodian_id", .int 4), ("parent_ref", .null)]

def c2_result : CollectState :=
  collect_insert_and_update_statements c2_src (some c2_prod) "account.physical_account"
    [c2_record_a, c2_record_b]
    (get_foreign_key_columns c2_src "account.physical_account" c2_graph)
    ["account_id", "custodian_account_id", "custodian_id", "parent_ref"]
    c2_graph [] [] false ⟨[], [], [], []⟩

def c1_src : SourceDb :=
  { select := fun _ _ => [],
    select_by_column := fun t c v =>
      if t = "p" ∧ c = "id" ∧ v = "P1" then [[("id", .str "P1")]] else [],
    table_columns := fun _ => ["id"], timestamp_columns := fun _ => [],
    all_fk_relationships := fun t => if t = "t" then [⟨"fk", "p", "id"⟩] else [],
    pk_columns := fun _ => [],
    exists_by_id := fun t v c => t = "p" && v = "P1" && c = "id" }

def c1_prod : TargetDb :=
  { exists_by_id := fun _ _ _ => false, query_exists := fun _ _ => false }

def c1_insert : Stmt :=
  { type := .insert, table := "t",
    statement := "INSERT INTO t (a, fk) VALUES (1, " ++ quoted "P1" ++ ");",
    columns := ["a", "fk"], values := [("a", .int 1), ("fk", .str "P1")] }

def c9_init : BfsState := ⟨[], [], [], [], [], [], [], [], [⟨"t", "c", 0⟩], []⟩

def c9_src : SourceDb :=
  { select := fun _ _ => [], select_by_column := fun _ _ _ => [],
    table_columns := fun _ => [], timestamp_columns := fun _ => [],
    all_fk_relationships := fun _ => [], pk_columns := fun _ => [],
    exists_by_id := fun _ _ _ => false }

/-! ## Claim C8: at-most-once processing per (table, predicate) pair -/
/-- The dedup key of a trace entry, exactly the visited-set key
`f"{table}::{conditions}"` of the source. -/
def trace_key (e : TraceEntry) : String := e.table ++ "::" ++ e.conditions

/-- The invariant carrying claim C8: trace keys are pairwise distinct and all
recorded in the visited set. -/
def bfs_trace_inv (s : BfsState) : Prop :=
  (s.trace.map trace_key).Nodup ∧ ∀ k ∈ s.trace.map trace_key, k ∈ s.visited_tables

/-! ## Claim C3: diamond reachability, reported depth and emission -/
/-- The statement texts of the INSERTs in a buffer. -/
def insert_texts (statements : List Stmt) : List String :=
  (statements.filter (fun st => st.type == StmtType.insert)).map Stmt.statement

/-- The affected-records entry induced by the last processed nonzero-count
occurrence of a table in the trace: this is what the dict-overwrite of source
line 1384 leaves behind. -/
def last_nonzero_entry (trace : List TraceEntry) (t : String) : Option AffectedEntry :=
  ((trace.filter (fun e => e.table == t && !(e.record_count == 0))).getLast?).map
    (fun e => ⟨e.record_count, e.conditions, e.level⟩)

/-- The buffer/seen-set invariant of the pipeline: buffered INSERT texts are
pairwise distinct and all recorded in the seen set. -/
def collect_inv (cs : CollectState) : Prop :=
  (insert_texts cs.statement_buffer).Nodup ∧
  ∀ x ∈ insert_texts cs.statement_buffer, x ∈ cs.insert_statements_seen

/-- The run invariant behind the amended claim C3: the affected-records map
always equals the last nonzero trace occurrence per table, and buffered
INSERT texts stay pairwise distinct. -/
def bfs_run_inv (s : BfsState) : Prop :=
  (∀ T, dget? s.affected_records T = last_nonzero_entry s.trace T) ∧
  collect_inv ⟨s.insert_statements_seen, s.restored_records, s.skipped_records,
    s.statement_buffer⟩

def c3_src : SourceDb :=
  { select := fun _ _ => [[("id", .str "1")]], select_by_column := fun _ _ _ => [],
    table_columns := fun _ => ["id"], timestamp_columns := fun _ => [],
    all_fk_relationships := fun _ => [], pk_columns := fun _ => [],
    exists_by_id := fun _ _ _ => false }

def c3_graph : CascadeGraph :=
  [("R", [⟨"A", "a", "id"⟩, ⟨"T", "t", "id"⟩]), ("A", [⟨"T", "t2", "id"⟩])]

def c3_run : RunResult :=
  find_affected_records_iteratively c3_src none c3_graph "R" "id = 1" false 10

def c3_condT1 : String := "t IN (SELECT DISTINCT id FROM R WHERE id = 1)"

def c3_condT2 : String :=
  "t2 IN (SELECT DISTINCT id FROM A WHERE a IN (SELECT DISTINCT id FROM R WHERE id = 1))"


section Dict

variable {α : Type} {β : Type} [DecidableEq α]

theorem dget?_dset_self (d : List (α × β)) (a : α) (b : β) :
    dget? (dset d a b) a = some b := by
  induction d with
  | nil => simp [dset, dget?]
  | cons h t ih =>
    by_cases hk : h.1 = a
    · simp [dset, dget?, hk]
    · simp [dset, dget?, hk, ih]

theorem dget?_dset_ne (d : List (α × β)) (a a' : α) (b : β) (h : a ≠ a') :
    dget? (dset d a b) a' = dget? d a' := by
  induction d with
  | nil => simp [dset, dget?, h]
  | cons hd t ih =>
    by_cases hk : hd.1 = a
    · simp only [dset, hk, if_pos rfl]
      simp [dget?, hk, h]
    · simp only [dset, if_neg hk]
      simp [dget?, ih]

theorem mem_keysOf_dset (d : List (α × β)) (a k : α) (b : β) :
    k ∈ keysOf (dset d a b) ↔ k = a ∨ k ∈ keysOf d := by
  induction d with
  | nil => simp [dset, keysOf]
  | cons hd t ih =>
    obtain ⟨k0, v0⟩ := hd
    by_cases hk : k0 = a
    · subst hk
      simp only [dset, if_true, eq_self_iff_true, keysOf, List.map_cons, List.mem_cons]
      tauto
    · simp only [dset, if_neg hk, keysOf, List.map_cons, List.mem_cons]
      rw [show (List.map Prod.fst (dset t a b)) = keysOf (dset t a b) from rfl, ih]
      tauto

theorem dmem_iff_mem_keysOf (d : List (α × β)) (a : α) :
    dmem d a = true ↔ a ∈ keysOf d := by
  induction d with
  | nil => simp [dmem, dget?, keysOf]
  | cons hd t ih =>
    by_cases hk : hd.1 = a
    · simp [dmem, dget?, hk, keysOf]
    · simp only [dmem, dget?, if_neg hk, keysOf, List.map_cons, List.mem_cons]
      rw [← keysOf, ← ih]
      simp [dmem, Ne.symm hk]

theorem nodup_keysOf_dset (d : List (α × β)) (a : α) (b : β)
    (h : (keysOf d).Nodup) : (keysOf (dset d a b)).Nodup := by
  induction d with
  | nil => simp [dset, keysOf]
  | cons hd t ih =>
    by_cases hk : hd.1 = a
    · simpa [dset, if_pos hk, keysOf] using h
    · simp only [dset, if_neg hk, keysOf, List.map_cons, List.nodup_cons] at *
      refine ⟨fun hmem => ?_, ih h.2⟩
      rcases (mem_keysOf_dset t a hd.1 b).mp hmem with h2 | h2
      · exact hk h2
      · exact h.1 h2

theorem mem_of_dget? {d : List (α × β)} {a : α} {b : β}
    (h : dget? d a = some b) : (a, b) ∈ d := by
  induction d with
  | nil => simp [dget?] at h
  | cons hd t ih =>
    by_cases hk : hd.1 = a
    · rw [dget?, if_pos hk] at h
      obtain ⟨k0, v0⟩ := hd
      cases h
      cases hk
      exact List.mem_cons_self _ _
    · rw [dget?, if_neg hk] at h
      exact List.mem_cons_of_mem _ (ih h)

theorem mem_dset (d : List (α × β)) (a : α) (b : β) (p : α × β)
    (hp : p ∈ dset d a b) : p = (a, b) ∨ p ∈ d := by
  induction d with
  | nil => simp [dset] at hp; simp [hp]
  | cons hd t ih =>
    by_cases hk : hd.1 = a
    · simp only [dset, if_pos hk] at hp
      rw [List.mem_cons] at hp
      rcases hp with hp | hp
      · left; rw [hp, hk]
      · right; exact List.mem_cons_of_mem _ hp
    · simp only [dset, if_neg hk] at hp
      rw [List.mem_cons] at hp
      rcases hp with hp | hp
      · right; exact hp ▸ List.mem_cons_self _ _
      · rcases ih hp with h | h
        · left; exact h
        · right; exact List.mem_cons_of_mem _ h

end Dict

section FoldLemmas

variable {γ δ : Type _}

theorem foldl_preserves_mem (P : δ → Prop) (f : δ → γ → δ) :
    ∀ (l : List γ), (∀ a c, c ∈ l → P a → P (f a c)) → ∀ a, P a → P (l.foldl f a)
  | [], _, _, ha => ha
  | c :: t, h, a, ha => by
    simp only [List.foldl_cons]
    exact foldl_preserves_mem P f t (fun a2 c2 hc2 => h a2 c2 (List.mem_cons_of_mem _ hc2))
      (f a c) (h a c (List.mem_cons_self _ _) ha)

theorem foldl_establishes (P : δ → Prop) (f : δ → γ → δ)
    (hpres : ∀ a c, P a → P (f a c)) :
    ∀ (l : List γ) (e : γ), e ∈ l → (∀ a, P (f a e)) → ∀ a, P (l.foldl f a)
  | [], e, he, _, _ => absurd he (List.not_mem_nil e)
  | c :: t, e, he, hstep, a => by
    simp only [List.foldl_cons]
    rcases List.mem_cons.mp he with h | h
    · exact foldl_preserves_mem P f t (fun a2 c2 _ => hpres a2 c2) (f a c) (h ▸ hstep a)
    · exact foldl_establishes P f hpres t e h hstep (f a c)

end FoldLemmas

theorem reachesAvoid_congr {g : CascadeGraph} {u v : String} {a b : List String} {n : Nat}
    (hab : ∀ x, x ∈ a ↔ x ∈ b) (h : ReachesAvoid g u v a n) : ReachesAvoid g u v b n := by
  induction h generalizing b with
  | single hu he => exact .single (fun hb => hu ((hab _).mpr hb)) he
  | head hu he _ ih =>
    refine .head (fun hb => hu ((hab _).mpr hb)) he (ih ?_)
    intro x
    simp only [List.mem_cons]
    rw [hab x]

theorem reachesAvoid_mono {g : CascadeGraph} {u v : String} {small big : List String} {n : Nat}
    (hsub : ∀ x, x ∈ small → x ∈ big) (h : ReachesAvoid g u v big n) :
    ReachesAvoid g u v small n := by
  induction h generalizing small with
  | single hu he => exact .single (fun hs => hu (hsub _ hs)) he
  | head hu he _ ih =>
    refine .head (fun hs => hu (hsub _ hs)) he (ih ?_)
    intro x hx
    rcases List.mem_cons.mp hx with h2 | h2
    · exact h2 ▸ List.mem_cons_self _ _
    · exact List.mem_cons_of_mem _ (hsub _ h2)

theorem reachesAvoid_insert {g : CascadeGraph} {u v : String} {avoid : List String} {n : Nat}
    (h : ReachesAvoid g u v avoid n) (x : String) :
    ReachesAvoid g u v (x :: avoid) n ∨ ∃ m, m ≤ n ∧ ReachesAvoid g x v avoid m := by
  induction h with
  | @single u2 v2 avoid2 hu he =>
    by_cases hx : u2 = x
    · right; exact ⟨1, le_refl 1, .single (hx ▸ hu) (hx ▸ he)⟩
    · left
      refine .single (fun hmem => ?_) he
      rcases List.mem_cons.mp hmem with h2 | h2
      · exact hx h2
      · exact hu h2
  | @head u2 w2 v2 avoid2 n2 hu he hrest ih =>
    by_cases hx : u2 = x
    · right
      exact ⟨n2 + 1, le_refl _, hx ▸ ReachesAvoid.head hu he hrest⟩
    · rcases ih with h2 | ⟨m, hm, h2⟩
      · left
        refine .head (fun hmem => ?_) he (reachesAvoid_congr ?_ h2)
        · rcases List.mem_cons.mp hmem with h3 | h3
          · exact hx h3
          · exact hu h3
        · intro y
          simp only [List.mem_cons]
          tauto
      · right
        refine ⟨m, Nat.le_succ_of_le hm, reachesAvoid_mono ?_ h2⟩
        intro y hy
        exact List.mem_cons_of_mem _ hy

theorem reaches_to_avoid {g : CascadeGraph} {u v : String} {n : Nat}
    (h : Reaches g u v n) : ∃ m, m ≤ n ∧ ReachesAvoid g u v [] m := by
  induction h with
  | single he => exact ⟨1, le_refl 1, .single (List.not_mem_nil _) he⟩
  | @head u2 w2 v2 n2 he _ ih =>
    rcases ih with ⟨m, hm, h2⟩
    rcases reachesAvoid_insert h2 u2 with h3 | ⟨m2, hm2, h3⟩
    · exact ⟨m + 1, Nat.succ_le_succ hm, .head (List.not_mem_nil _) he h3⟩
    · exact ⟨m2, le_trans hm2 (le_trans hm (Nat.le_succ _)), h3⟩

theorem mem_all_graph_nodes_of_key {g : CascadeGraph} {u : String}
    (h : (dget? g u).isSome) : u ∈ all_graph_nodes g := by
  unfold all_graph_nodes
  induction g with
  | nil => simp [dget?] at h
  | cons hd t ih =>
    simp only [List.foldl_cons]
    by_cases hk : hd.1 = u
    · refine foldl_preserves_mem (fun acc => u ∈ acc) _ t (fun a c _ hmem => ?_) _ ?_
      · exact List.mem_append_left _ hmem
      · exact List.mem_append_right _ (hk ▸ List.mem_cons_self _ _)
    · rw [dget?, if_neg hk] at h
      have hmem0 := ih h
      have key : ∀ (l : List (String × List FkEdge)) (a1 a2 : List String),
          u ∈ List.foldl (fun acc p => acc ++ p.1 :: p.2.map (·.child_table)) a1 l →
          (∀ x, x ∈ a1 → x ∈ a2) →
          u ∈ List.foldl (fun acc p => acc ++ p.1 :: p.2.map (·.child_table)) a2 l := by
        intro l
        induction l with
        | nil => intro a1 a2 h1 h12; exact h12 _ h1
        | cons hd2 t2 ih2 =>
          intro a1 a2 h1 h12
          simp only [List.foldl_cons] at *
          refine ih2 _ _ h1 ?_
          intro x hx
          rcases List.mem_append.mp hx with h2 | h2
          · exact List.mem_append_left _ (h12 _ h2)
          · exact List.mem_append_right _ h2
      exact key t [] _ hmem0 (fun x hx => absurd hx (List.not_mem_nil x))

theorem edge_to_mem_nodes {g : CascadeGraph} {u v : String}
    (h : edge_to g u v) : u ∈ all_graph_nodes g := by
  rcases h with ⟨e, he, _⟩
  apply mem_all_graph_nodes_of_key
  unfold children_of at he
  cases hd : dget? g u with
  | none => rw [hd] at he; simp at he
  | some es => simp [hd]

theorem reachesAvoid_card_le {g : CascadeGraph} {u v : String} {avoid : List String} {n : Nat}
    (h : ReachesAvoid g u v avoid n) :
    n ≤ ((all_graph_nodes g).toFinset \ avoid.toFinset).card := by
  induction h with
  | @single u2 v2 avoid2 hu he =>
    have hmem : u2 ∈ (all_graph_nodes g).toFinset \ avoid2.toFinset := by
      simp only [Finset.mem_sdiff, List.mem_toFinset]
      exact ⟨edge_to_mem_nodes he, hu⟩
    exact Finset.card_pos.mpr ⟨u2, hmem⟩
  | @head u2 w2 v2 avoid2 n2 hu he _ ih =>
    have hmem : u2 ∈ (all_graph_nodes g).toFinset \ avoid2.toFinset := by
      simp only [Finset.mem_sdiff, List.mem_toFinset]
      exact ⟨edge_to_mem_nodes he, hu⟩
    have hins : (u2 :: avoid2).toFinset = insert u2 avoid2.toFinset := by
      simp
    rw [hins, Finset.sdiff_insert] at ih
    have hcard := Finset.card_erase_of_mem hmem
    have hpos : 0 < ((all_graph_nodes g).toFinset \ avoid2.toFinset).card :=
      Finset.card_pos.mpr ⟨u2, hmem⟩
    omega

theorem mem_keysOf_of_dget? {α β : Type} [DecidableEq α] {d : List (α × β)} {k : α} {b : β}
    (h : dget? d k = some b) : k ∈ keysOf d := by
  have : dmem d k = true := by simp [dmem, h]
  exact (dmem_iff_mem_keysOf d k).mp this

theorem mem_keysOf_merge {start : String} {a : List (String × DepthPath)}
    {p : String × DepthPath} {k : String} (h : k ∈ keysOf a) :
    k ∈ keysOf (mergeAffectedEntry start a p) := by
  unfold mergeAffectedEntry
  cases hdg : dget? a p.1 with
  | none => exact (mem_keysOf_dset a p.1 k _).mpr (Or.inr h)
  | some old =>
    by_cases hlt : p.2.depth < old.depth
    · simp only [if_pos hlt]
      exact (mem_keysOf_dset a p.1 k _).mpr (Or.inr h)
    · simp only [if_neg hlt]
      exact h

theorem mem_keysOf_merge_self {start : String} {a : List (String × DepthPath)}
    {p : String × DepthPath} : p.1 ∈ keysOf (mergeAffectedEntry start a p) := by
  unfold mergeAffectedEntry
  cases hdg : dget? a p.1 with
  | none => exact (mem_keysOf_dset a p.1 p.1 _).mpr (Or.inl rfl)
  | some old =>
    by_cases hlt : p.2.depth < old.depth
    · simp only [if_pos hlt]
      exact (mem_keysOf_dset a p.1 p.1 _).mpr (Or.inl rfl)
    · simp only [if_neg hlt]
      exact mem_keysOf_of_dget? hdg

theorem mem_keysOf_merge_fold (start : String) :
    ∀ (l : List (String × DepthPath)) (acc : List (String × DepthPath))
      (p : String × DepthPath), p ∈ l →
      p.1 ∈ keysOf (l.foldl (mergeAffectedEntry start) acc)
  | [], _, p, hp => absurd hp (List.not_mem_nil p)
  | hd :: t, acc, p, hp => by
    simp only [List.foldl_cons]
    rcases List.mem_cons.mp hp with h | h
    · subst h
      exact foldl_preserves_mem (fun a => p.1 ∈ keysOf a) _ t
        (fun _a _c _ ha => mem_keysOf_merge ha) _ mem_keysOf_merge_self
    · exact mem_keysOf_merge_fold start t _ p h

theorem mem_keysOf_merge_fold_acc (start : String) {k : String} :
    ∀ (l : List (String × DepthPath)) (acc : List (String × DepthPath)),
      k ∈ keysOf acc → k ∈ keysOf (l.foldl (mergeAffectedEntry start) acc) :=
  fun l acc h => foldl_preserves_mem (fun a => k ∈ keysOf a) _ l
    (fun _a _c _ ha => mem_keysOf_merge ha) acc h

theorem countKeys_nodup : ∀ (fuel : Nat) (g : CascadeGraph) (start : String)
    (visited : List String) (depth : Nat),
    (keysOf (count_affected_subtables_recursive g start visited depth fuel)).Nodup
  | 0, g, start, visited, depth => by
    simp [count_affected_subtables_recursive, keysOf]
  | fuel + 1, g, start, visited, depth => by
    unfold count_affected_subtables_recursive
    by_cases h : start ∈ visited
    · simp [h, keysOf]
    · rw [if_neg h]
      refine foldl_preserves_mem (fun acc => (keysOf acc).Nodup) _ _
        (fun a e _ ha => ?_) _ (by simp [keysOf])
      dsimp only
      refine foldl_preserves_mem (fun acc => (keysOf acc).Nodup) _ _
        (fun a2 p _ ha2 => ?_) _ ?_
      · unfold mergeAffectedEntry
        cases hdg : dget? a2 p.1 with
        | none => exact nodup_keysOf_dset _ _ _ ha2
        | some old =>
          by_cases hlt : p.2.depth < old.depth
          · simp only [if_pos hlt]
            exact nodup_keysOf_dset _ _ _ ha2
          · simp only [if_neg hlt]
            exact ha2
      · by_cases hm : dmem a e.child_table
        · simp only [if_pos hm]
          exact ha
        · simp only [if_neg hm]
          exact nodup_keysOf_dset _ _ _ ha

theorem countStep_preserves_key {g : CascadeGraph} {start : String} {visited2 : List String}
    {depth fuel : Nat} {k : String} {a : List (String × DepthPath)} {e : FkEdge}
    (ha : k ∈ keysOf a) :
    k ∈ keysOf ((count_affected_subtables_recursive g e.child_table visited2 (depth + 1)
      fuel).foldl (mergeAffectedEntry start)
        (if dmem a e.child_table then a
         else dset a e.child_table ⟨depth + 1, start ++ " -> " ++ e.child_table⟩)) := by
  apply mem_keysOf_merge_fold_acc
  by_cases hm : dmem a e.child_table
  · simp only [if_pos hm]; exact ha
  · simp only [if_neg hm]
    exact (mem_keysOf_dset a e.child_table k _).mpr (Or.inr ha)

theorem countStep_establishes_rec {g : CascadeGraph} {start : String} {visited2 : List String}
    {depth fuel : Nat} {k : String} (a : List (String × DepthPath)) (e : FkEdge)
    (hrec : k ∈ keysOf (count_affected_subtables_recursive g e.child_table visited2
      (depth + 1) fuel)) :
    k ∈ keysOf ((count_affected_subtables_recursive g e.child_table visited2 (depth + 1)
      fuel).foldl (mergeAffectedEntry start)
        (if dmem a e.child_table then a
         else dset a e.child_table ⟨depth + 1, start ++ " -> " ++ e.child_table⟩)) := by
  rcases List.mem_map.mp hrec with ⟨p, hp, hpk⟩
  have := mem_keysOf_merge_fold start _
    (if dmem a e.child_table then a
     else dset a e.child_table ⟨depth + 1, start ++ " -> " ++ e.child_table⟩) p hp
  rw [hpk] at this
  exact this

theorem countComplete {n : Nat} {g : CascadeGraph} {start v : String} {avoid : List String}
    (h : ReachesAvoid g start v avoid n) :
    ∀ (visited : List String) (depth fuel : Nat),
    (∀ x, x ∈ visited ↔ x ∈ avoid) → n < fuel →
    v ∈ keysOf (count_affected_subtables_recursive g start visited depth fuel) := by
  induction h with
  | @single u v2 avoid2 hu he =>
    intro visited depth fuel hvis hfuel
    obtain ⟨f, rfl⟩ : ∃ f, fuel = f + 1 := ⟨fuel - 1, by omega⟩
    unfold count_affected_subtables_recursive
    have hnv : u ∉ visited := fun hm => hu ((hvis _).mp hm)
    rw [if_neg hnv]
    rcases he with ⟨e, hel, hec⟩
    refine foldl_establishes (fun acc => v2 ∈ keysOf acc) _ ?_ _ e hel ?_ []
    · intro a c ha
      exact countStep_preserves_key ha
    · intro a
      dsimp only
      apply mem_keysOf_merge_fold_acc
      by_cases hm : dmem a e.child_table
      · simp only [if_pos hm]
        exact hec ▸ (dmem_iff_mem_keysOf a e.child_table).mp hm
      · simp only [if_neg hm]
        exact (mem_keysOf_dset a e.child_table v2 _).mpr (Or.inl hec.symm)
  | @head u w v2 avoid2 n2 hu he hrest ih =>
    intro visited depth fuel hvis hfuel
    obtain ⟨f, rfl⟩ : ∃ f, fuel = f + 1 := ⟨fuel - 1, by omega⟩
    unfold count_affected_subtables_recursive
    have hnv : u ∉ visited := fun hm => hu ((hvis _).mp hm)
    rw [if_neg hnv]
    rcases he with ⟨e, hel, hec⟩
    have hrec : v2 ∈ keysOf (count_affected_subtables_recursive g e.child_table
        (visited ++ [u]) (depth + 1) f) := by
      rw [hec]
      apply ih (visited ++ [u]) (depth + 1) f ?_ (by omega)
      intro x
      constructor
      · intro hx
        rcases List.mem_append.mp hx with h1 | h1
        · exact List.mem_cons_of_mem _ ((hvis x).mp h1)
        · exact (List.mem_singleton.mp h1) ▸ List.mem_cons_self _ _
      · intro hx
        rcases List.mem_cons.mp hx with h1 | h1
        · exact List.mem_append_right _ (by rw [h1]; exact List.mem_singleton_self u)
        · exact List.mem_append_left _ ((hvis x).mpr h1)
    refine foldl_establishes (fun acc => v2 ∈ keysOf acc) _ ?_ _ e hel ?_ []
    · intro a c ha
      exact countStep_preserves_key ha
    · intro a
      dsimp only
      exact countStep_establishes_rec a e hrec

theorem mem_mergeAffectedEntry {start : String} {a : List (String × DepthPath)}
    {p q : String × DepthPath} (h : q ∈ mergeAffectedEntry start a p) :
    q = (p.1, ⟨p.2.depth, start ++ " -> " ++ p.2.path⟩) ∨ q ∈ a := by
  unfold mergeAffectedEntry at h
  split at h
  · exact mem_dset _ _ _ _ h
  · split at h
    · exact mem_dset _ _ _ _ h
    · exact Or.inr h

theorem countSound : ∀ (fuel : Nat) (g : CascadeGraph) (start : String)
    (visited : List String) (depth : Nat) (t : String) (dp : DepthPath),
    (t, dp) ∈ count_affected_subtables_recursive g start visited depth fuel →
    ∃ k, 1 ≤ k ∧ dp.depth = depth + k ∧ Reaches g start t k
  | 0, g, start, visited, depth, t, dp => by
    intro hmem
    simp [count_affected_subtables_recursive] at hmem
  | fuel + 1, g, start, visited, depth, t, dp => by
    unfold count_affected_subtables_recursive
    by_cases h : start ∈ visited
    · intro hmem; simp [h] at hmem
    · rw [if_neg h]
      intro hmem
      refine foldl_preserves_mem
        (fun (acc : List (String × DepthPath)) => ∀ (t2 : String) (dp2 : DepthPath),
          (t2, dp2) ∈ acc →
          ∃ k, 1 ≤ k ∧ dp2.depth = depth + k ∧ Reaches g start t2 k) _
        (children_of g start) ?_ [] (by intro t2 dp2 hm; simp at hm) t dp hmem
      intro a e hel ha
      dsimp only
      refine foldl_preserves_mem
        (fun (acc : List (String × DepthPath)) => ∀ (t2 : String) (dp2 : DepthPath),
          (t2, dp2) ∈ acc →
          ∃ k, 1 ≤ k ∧ dp2.depth = depth + k ∧ Reaches g start t2 k) _ _ ?_ _ ?_
      · -- the merge of one recursive entry
        intro a2 p hp ha2 t2 dp2 hm2
        rcases mem_mergeAffectedEntry hm2 with heq | hmem2
        · obtain ⟨p1, p2⟩ := p
          rw [Prod.mk.injEq] at heq
          obtain ⟨heq1, heq2⟩ := heq
          rcases countSound fuel g e.child_table (visited ++ [start]) (depth + 1)
            p1 p2 hp with ⟨k, hk1, hkd, hkr⟩
          refine ⟨k + 1, by omega, ?_, ?_⟩
          · rw [heq2]
            simpa using by omega
          · rw [heq1]
            exact Reaches.head ⟨e, hel, rfl⟩ hkr
        · exact ha2 t2 dp2 hmem2
      · -- the direct-child insertion
        intro t2 dp2 hm2
        by_cases hmem3 : dmem a e.child_table
        · rw [if_pos hmem3] at hm2
          exact ha t2 dp2 hm2
        · rw [if_neg hmem3] at hm2
          rcases mem_dset _ _ _ _ hm2 with heq | hmem4
          · rw [Prod.mk.injEq] at heq
            obtain ⟨heq1, heq2⟩ := heq
            refine ⟨1, le_refl 1, ?_, ?_⟩
            · rw [heq2]
            · rw [heq1]
              exact Reaches.single ⟨e, hel, rfl⟩
          · exact ha t2 dp2 hmem4

/-- C7 (amended): the descendants enumeration records every table transitively
reachable (in one or more cascade edges) from the start exactly once (its
result is keyed without duplicates), and cycle protection is per branch — a
table excluded as already visited on one branch is still recorded via another
branch, which is what makes every reachable table appear.  The recorded depth
is the length of one of the cascade walks from the start to the table (hence
at least the minimum depth over all branches, but, as the counterexample
shows, not always equal to it). -/
theorem c7_descendants_amended (g : CascadeGraph) (start : String) :
    (keysOf (count_affected_subtables g start)).Nodup ∧
    (∀ t, t ∈ keysOf (count_affected_subtables g start) ↔ ∃ n, Reaches g start t n) ∧
    (∀ t dp, (t, dp) ∈ count_affected_subtables g start →
      1 ≤ dp.depth ∧ Reaches g start t dp.depth) := by
  refine ⟨countKeys_nodup _ g start [] 0, fun t => ⟨?_, ?_⟩, fun t dp hmem => ?_⟩
  · intro hmem
    rcases List.mem_map.mp hmem with ⟨⟨t2, dp⟩, hmem2, hk⟩
    dsimp only at hk
    rcases countSound _ g start [] 0 t2 dp hmem2 with ⟨k, _, _, hr⟩
    exact ⟨k, hk ▸ hr⟩
  · rintro ⟨n, hr⟩
    rcases reaches_to_avoid hr with ⟨m, _, hra⟩
    have hcard := reachesAvoid_card_le hra
    rw [List.toFinset_nil, Finset.sdiff_empty] at hcard
    have hlen := List.toFinset_card_le (all_graph_nodes g)
    exact countComplete hra [] 0 ((all_graph_nodes g).length + 1)
      (fun x => Iff.rfl) (by omega)
  · rcases countSound _ g start [] 0 t dp hmem with ⟨k, hk1, hkd, hkr⟩
    rw [Nat.zero_add] at hkd
    rw [hkd]
    exact ⟨hk1, hkr⟩

/-- C7 counterexample: in the graph with cascade edges S→A, S→B and A→B
(children of S listed in the order A, B), table B is reachable directly from S
at depth 1, yet the enumeration records it with depth 2 (found first through
the deeper branch S→A→B, and the later direct-child visit does not lower an
already-recorded depth).  The claimed minimum depth over all branches is 1,
so the recorded depth is not the minimum. -/
theorem c7_counterexample :
    dget? (count_affected_subtables
        [("S", [⟨"A", "x", "y"⟩, ⟨"B", "x", "y"⟩]), ("A", [⟨"B", "x", "y"⟩])] "S") "B"
      = some ⟨2, "S -> A -> B"⟩ ∧
    Reaches [("S", [⟨"A", "x", "y"⟩, ⟨"B", "x", "y"⟩]), ("A", [⟨"B", "x", "y"⟩])] "S" "B" 1 ∧
    (2 : Nat) ≠ 1 := by
  refine ⟨by decide, Reaches.single ⟨⟨"B", "x", "y"⟩, by decide, rfl⟩, by decide⟩

theorem fk_chain_eq_spec (ctx : FkCtx) (restored_records : Registry) (column : String)
    (v : Value) :
    fk_insert_literal_and_update ctx restored_records column v =
      spec_fk_decision ctx restored_records column v := by
  unfold fk_insert_literal_and_update spec_fk_decision spec_rule_a spec_rule_b spec_rule_c
  cases hpt : dget? ctx.parent_tables column with
  | none =>
    cases hpc : dget? ctx.parent_columns column with
    | none =>
      cases hpr : ctx.prod_conn <;>
        cases v <;> simp [Option.any, vIsNull, fk_update_fragment]
    | some pc =>
      cases hpr : ctx.prod_conn <;>
        cases v <;> simp [Option.any, vIsNull, fk_update_fragment]
  | some pt =>
    cases hpc : dget? ctx.parent_columns column with
    | none =>
      cases hpr : ctx.prod_conn <;>
        cases v <;> simp [Option.any, vIsNull, fk_update_fragment, Bool.and_comm,
          Bool.and_assoc, Bool.and_left_comm]
    | some pc =>
      cases hpr : ctx.prod_conn <;>
        cases v <;> simp [Option.any, vIsNull, fk_update_fragment, Bool.and_comm,
          Bool.and_assoc, Bool.and_left_comm]

/-- C4: for every fetched row and every column recognised as a foreign key,
the emitted INSERT literal and the queued deferred fragment are decided by
the first applicable rule of the ordered chain (a) parent table already
processed, (b) value in the RestoredRegistry, (c) value confirmed in the
target database, (d) NULL plus a companion UPDATE fragment carrying the
actual value; non-foreign-key columns use the direct rendering, and the
companion UPDATE is keyed by the row's non-null non-foreign-key column
values. -/
theorem c4_fk_resolution_chain (cctx : ColCtx) (restored_records : Registry)
    (record : Record) (cols : List String) :
    record_insert_values cctx restored_records record cols =
      cols.map (fun col =>
        if cctx.fk_columns.contains col then
          (spec_fk_decision cctx.fk restored_records col (rget record col)).1
        else non_fk_insert_literal cctx.timestamp_columns col (rget record col)) ∧
    record_update_sets cctx restored_records record cols =
      cols.filterMap (fun col =>
        if cctx.fk_columns.contains col then
          (spec_fk_decision cctx.fk restored_records col (rget record col)).2
        else none) ∧
    record_where_conditions cctx record cols =
      cols.filterMap (fun col =>
        if cctx.fk_columns.contains col then none
        else non_fk_where_fragment cctx.timestamp_columns col (rget record col)) := by
  refine ⟨?_, ?_, rfl⟩
  · unfold record_insert_values
    apply List.map_congr_left
    intro col _
    rw [fk_chain_eq_spec]
  · unfold record_update_sets
    apply List.filterMap_congr
    intro col _
    rw [fk_chain_eq_spec]

/-- C6 counterexample: with the parent table p already processed, the
foreign-key column fk resolves by rule (a) and its string value — which
contains a single quote — is rendered into the INSERT without doubling the
quote; the statement survives the optimizer, the NULL-FK pass and the
computed-column filter unchanged, so the final script contains a
single-quoted string literal whose embedded quote is not doubled (and does
not contain the correctly escaped form). -/
theorem c6_counterexample :
    c6_result.statement_buffer.map Stmt.statement = [c6_stmt_text] ∧
    write_statements_lines
        (fix_null_foreign_keys (optimize_statements c6_result.statement_buffer)
          c6_graph) =
      ["-- t: 1 records", c6_stmt_text] ∧
    strContains c6_stmt_text (quoted c6_obrien) = true ∧
    strContains c6_stmt_text (quoted (pyEscapeQuotes c6_obrien)) = false := by
  refine ⟨by decide, by decide, by decide, by decide⟩

/-- C6 (amended): escaping by quote-doubling is applied only in some rendering
positions.  Non-foreign-key INSERT literals of non-timestamp columns, the
WHERE fragments of non-foreign-key columns, the existence/uniqueness check
conditions and the optimizer's merged values all double embedded quotes; but
string values in foreign-key columns resolved to their actual value, deferred
foreign-key UPDATE fragments, values rendered through a timestamp column, and
strings re-rendered by the NULL-FK pass are single-quoted without doubling
embedded quotes. -/
theorem c6_escaping_amended (ts : List String) (col col2 s : String)
    (hts : is_timestamp_column col ts = false)
    (hts2 : is_timestamp_column col2 ts = true)
    (hnull : s ≠ "NULL")
    (hwrap : (startsWithQuote s && endsWithQuote s) = false) :
    non_fk_insert_literal ts col (.str s) = quoted (pyEscapeQuotes s) ∧
    non_fk_where_fragment ts col (.str s) =
      some (col ++ " = " ++ quoted (pyEscapeQuotes s)) ∧
    render_eq_condition col (.str s) = col ++ " = " ++ quoted (pyEscapeQuotes s) ∧
    merge_render_literal (.str s) = quoted (pyEscapeQuotes s) ∧
    render_fk_actual (.str s) = quoted s ∧
    fk_update_fragment col (.str s) = col ++ " = " ++ quoted s ∧
    non_fk_insert_literal ts col2 (.str s) = quoted s ∧
    fix_render (.str s) = quoted s := by
  refine ⟨?_, ?_, rfl, rfl, rfl, rfl, ?_, ?_⟩
  · simp [non_fk_insert_literal, hts]
  · simp [non_fk_where_fragment, hts]
  · simp [non_fk_insert_literal, hts2, pyStr]
  · unfold fix_render
    rw [if_neg]
    · simp [hwrap]
    · simp [pyStr, hnull]

theorem c6_escaping_amended_witness :
    is_timestamp_column "name" c6_witness_ts = false ∧
    is_timestamp_column "created_at_col" c6_witness_ts = true ∧
    c6_obrien ≠ "NULL" ∧
    (startsWithQuote c6_obrien && endsWithQuote c6_obrien) = false ∧
    non_fk_insert_literal c6_witness_ts "name" (.str c6_obrien) =
      quoted (pyEscapeQuotes c6_obrien) :=
  ⟨by decide, by decide, by decide, by decide,
   (c6_escaping_amended c6_witness_ts "name" "created_at_col" c6_obrien
     (by decide) (by decide) (by decide) (by decide)).1⟩

/-- C5 counterexample: an UPDATE whose WHERE values match no INSERT of its
table is appended to the optimizer's output unchanged — it is silently
emitted, not flagged or dropped. -/
theorem c5_counterexample :
    records_match c5_insert c5_orphan_update = false ∧
    optimize_statements [c5_insert, c5_orphan_update] =
      [c5_insert, c5_orphan_update] := by
  refine ⟨by decide, by decide⟩

theorem find_matching_update_spec (ins : Stmt) (used : List Nat) :
    ∀ (l : List Stmt) (i j : Nat) (uj : Stmt),
    find_matching_update ins used l i = some (j, uj) →
    records_match ins uj = true ∧ ∃ k, l.get? k = some uj ∧ j = i + k := by
  intro l
  induction l with
  | nil => intro i j uj h; simp [find_matching_update] at h
  | cons hd t ih =>
    intro i j uj h
    rw [find_matching_update] at h
    by_cases hc : (!(used.contains i) && records_match ins hd) = true
    · rw [if_pos hc] at h
      obtain ⟨rfl, rfl⟩ : i = j ∧ hd = uj := by
        cases h; exact ⟨rfl, rfl⟩
      exact ⟨(Bool.and_eq_true _ _ |>.mp hc).2, 0, rfl, by omega⟩
    · rw [if_neg hc] at h
      rcases ih (i + 1) j uj h with ⟨hm, k, hk, hj⟩
      exact ⟨hm, k + 1, hk, by omega⟩

theorem match_pass_used_not_mem (updates : List Stmt) (iu : Nat) (u : Stmt)
    (hget : updates.get? iu = some u) (inserts : List Stmt)
    (hno : ∀ ins ∈ inserts, records_match ins u = false) :
    iu ∉ (match_pass inserts updates).2 := by
  unfold match_pass
  refine foldl_preserves_mem
    (fun (acc : List Stmt × List Nat) => iu ∉ acc.2) _ inserts
    (fun a ins hins ha => ?_) ([], []) (List.not_mem_nil iu)
  dsimp only
  cases hfind : find_matching_update ins a.2 updates 0 with
  | none => exact ha
  | some p =>
    obtain ⟨j, uj⟩ := p
    rcases find_matching_update_spec ins a.2 updates 0 j uj hfind with ⟨hm, k, hk, hjk⟩
    have hne : j ≠ iu := by
      intro hcontra
      subst hcontra
      have : j = k := by omega
      subst this
      rw [hget] at hk
      cases hk
      exact absurd hm (by simp [hno ins hins])
    dsimp only
    intro hmem
    rcases List.mem_append.mp hmem with h2 | h2
    · exact ha h2
    · exact hne (List.mem_singleton.mp h2).symm

theorem mem_enumFrom_of_get? {γ : Type} :
    ∀ (l : List γ) (n i : Nat) (x : γ),
    l.get? i = some x → (n + i, x) ∈ l.enumFrom n
  | [], _, i, x, h => by simp [List.get?] at h
  | hd :: t, n, 0, x, h => by
    rw [List.get?] at h
    cases h
    simp [List.enumFrom]
  | hd :: t, n, i + 1, x, h => by
    rw [List.get?] at h
    have := mem_enumFrom_of_get? t (n + 1) i x h
    rw [List.enumFrom]
    refine List.mem_cons_of_mem _ ?_
    have harith : n + (i + 1) = (n + 1) + i := by omega
    rw [harith]
    exact this

theorem mem_unmatched (updates : List Stmt) (used : List Nat) (iu : Nat) (u : Stmt)
    (hget : updates.get? iu = some u) (hnot : iu ∉ used) :
    u ∈ unmatched_updates updates used := by
  unfold unmatched_updates
  have hmem : (iu, u) ∈ updates.enum := by
    have := mem_enumFrom_of_get? updates 0 iu u hget
    simpa [List.enum] using this
  refine List.mem_map.mpr ⟨(iu, u), List.mem_filter.mpr ⟨hmem, ?_⟩, rfl⟩
  simp only [Bool.not_eq_true']
  cases hcc : used.contains iu
  · rfl
  · exact absurd (List.mem_of_elem_eq_true hcc) hnot

theorem group_aux (t : String) :
    ∀ (l : List Stmt) (acc : List (String × (List Stmt × List Stmt))),
    (dget? (l.foldl group_step acc) t).getD ([], []) =
      (((dget? acc t).getD ([], [])).1 ++
         l.filter (fun st => st.type == StmtType.insert && st.table == t),
       ((dget? acc t).getD ([], [])).2 ++
         l.filter (fun st => st.type == StmtType.update && st.table == t)) := by
  intro l
  induction l with
  | nil => intro acc; simp
  | cons st l ih =>
    intro acc
    rw [List.foldl_cons, ih]
    by_cases hteq : st.table = t
    · have hself : dget? (group_step acc st) t = some
          (let cur := (dget? acc st.table).getD ([], [])
           match st.type with
           | .insert => (cur.1 ++ [st], cur.2)
           | .update => (cur.1, cur.2 ++ [st])) := by
        rw [← hteq]
        unfold group_step
        exact dget?_dset_self _ _ _
      rw [hself, hteq]
      cases hty : st.type <;>
        simp [List.filter_cons, hty, hteq, List.append_assoc]
    · have hother : dget? (group_step acc st) t = dget? acc t := by
        unfold group_step
        exact dget?_dset_ne _ _ _ _ (fun e => hteq e)
      rw [hother]
      cases hty : st.type <;>
        simp [List.filter_cons, hty, hteq]

/-- C5 (amended): an UPDATE left unmatched by the optimizer pass — no INSERT
of its table has literal values equal to the UPDATE's WHERE-column values —
is appended unchanged to the optimizer's output (the source comments this
case with "shouldn't happen in normal cases" but emits it silently; nothing
flags it as an invariant violation). -/
theorem c5_unmatched_update_amended (statement_buffer : List Stmt) (u : Stmt)
    (hu : u ∈ statement_buffer) (hty : u.type = StmtType.update)
    (hno : ∀ ins ∈ statement_buffer, ins.type = StmtType.insert →
      ins.table = u.table → records_match ins u = false) :
    u ∈ optimize_statements statement_buffer := by
  set ins_t := statement_buffer.filter
    (fun st => st.type == StmtType.insert && st.table == u.table) with hins_t
  set upd_t := statement_buffer.filter
    (fun st => st.type == StmtType.update && st.table == u.table) with hupd_t
  have hgrp : (dget? (group_statements_by_table statement_buffer) u.table).getD ([], [])
      = (ins_t, upd_t) := by
    show (dget? (statement_buffer.foldl group_step []) u.table).getD ([], []) = _
    rw [group_aux u.table statement_buffer []]
    simp [dget?]
  have hu2 : u ∈ upd_t := by
    rw [hupd_t]
    exact List.mem_filter.mpr ⟨hu, by simp [hty]⟩
  have hnofilter : ∀ ins ∈ ins_t, records_match ins u = false := by
    intro ins hins
    rcases List.mem_filter.mp hins with ⟨hmem, hcond⟩
    rcases Bool.and_eq_true _ _ |>.mp hcond with ⟨h1, h2⟩
    exact hno ins hmem (by simpa using h1) (by simpa using h2)
  rcases List.mem_iff_get?.mp hu2 with ⟨iu, hget⟩
  have hused := match_pass_used_not_mem upd_t iu u hget ins_t hnofilter
  have hum := mem_unmatched upd_t (match_pass ins_t upd_t).2 iu u hget hused
  -- the group dict holds exactly (ins_t, upd_t) for u.table
  have hpair : (u.table, (ins_t, upd_t)) ∈ group_statements_by_table statement_buffer := by
    cases hdg : dget? (group_statements_by_table statement_buffer) u.table with
    | none =>
      exfalso
      rw [hdg] at hgrp
      simp only [Option.getD] at hgrp
      have hnil : upd_t = [] := by
        have := congrArg Prod.snd hgrp
        simpa using this.symm
      rw [hnil] at hu2
      exact absurd hu2 (List.not_mem_nil u)
    | some p =>
      have hp : p = (ins_t, upd_t) := by
        rw [hdg] at hgrp
        simpa using hgrp
      rw [← hp]
      exact mem_of_dget? hdg
  unfold optimize_statements
  refine foldl_establishes (fun acc => u ∈ acc) _
    (fun a c ha => List.mem_append_left _ (List.mem_append_left _ ha))
    (group_statements_by_table statement_buffer) (u.table, (ins_t, upd_t)) hpair
    (fun a => ?_) []
  dsimp only
  exact List.mem_append_right _ hum

theorem c5_unmatched_update_amended_witness :
    c5_orphan_update ∈ optimize_statements [c5_insert, c5_orphan_update] :=
  c5_unmatched_update_amended [c5_insert, c5_orphan_update] c5_orphan_update
    (by decide) (by decide)
    (fun ins hins h1 _h2 => by
      rcases List.mem_cons.mp hins with rfl | h
      · decide
      · rcases List.mem_cons.mp h with rfl | h
        · exact absurd h1 (by decide)
        · exact absurd h (List.not_mem_nil ins))

/-! ## Claim C10: the hard-coded uniqueness registry -/
theorem check_unique_not_registered (db : TargetDb) (table : String) (record : Record)
    (h : table ∉ ["account.physical_account", "account.virtual_account", "entity.entity"]) :
    check_unique_constraint_violation db table record = false := by
  have h1 : ¬("account.physical_account" = table) := fun e =>
    h (e ▸ (by decide : "account.physical_account" ∈
      ["account.physical_account", "account.virtual_account", "entity.entity"]))
  have h2 : ¬("account.virtual_account" = table) := fun e =>
    h (e ▸ (by decide : "account.virtual_account" ∈
      ["account.physical_account", "account.virtual_account", "entity.entity"]))
  have h3 : ¬("entity.entity" = table) := fun e =>
    h (e ▸ (by decide : "entity.entity" ∈
      ["account.physical_account", "account.virtual_account", "entity.entity"]))
  simp only [check_unique_constraint_violation, unique_constraints, dget?,
    if_neg h1, if_neg h2, if_neg h3]

theorem process_record_skipped_of_no_violation (table : String) (cctx : ColCtx)
    (all_columns pk_columns : List String) (g : CascadeGraph) (prod : Option TargetDb)
    (conflict : Bool) (s : CollectState) (record : Record)
    (h : ∀ db : TargetDb, check_unique_constraint_violation db table record = false) :
    (process_record table cctx all_columns pk_columns g prod conflict s record).skipped_records
      = s.skipped_records := by
  unfold process_record
  dsimp only
  cases hconf : conflict
  · cases prod with
    | none =>
      simp only [Bool.false_eq_true, if_false]
      split_ifs <;> first | contradiction | rfl
    | some p =>
      simp only [Bool.false_eq_true, if_false, h p]
      split_ifs <;> first | contradiction | rfl
  · simp only [if_true]
    split_ifs <;> first | contradiction | rfl

/-- C10: the uniqueness-violation pre-check recognises only the three tables
of its hard-coded registry (`unique_constraints` above names exactly
account.physical_account on (custodian_account_id, custodian_id),
account.virtual_account on (account_id) and entity.entity on (entity_id));
for a record of any other table it returns false, and consequently a
pipeline run over any other table leaves the SkipRegistry untouched — no such
row is ever skipped on uniqueness grounds. -/
theorem c10_unique_registry_only_three (table : String)
    (h : table ∉ ["account.physical_account", "account.virtual_account", "entity.entity"]) :
    (∀ (db : TargetDb) (record : Record),
      check_unique_constraint_violation db table record = false) ∧
    (∀ (restore_conn : SourceDb) (prod : Option TargetDb) (records : List Record)
      (fk_columns all_columns : List String) (g : CascadeGraph)
      (processed ts : List String) (conflict : Bool) (s : CollectState),
      (collect_insert_and_update_statements restore_conn prod table records fk_columns
        all_columns g processed ts conflict s).skipped_records = s.skipped_records) := by
  have part1 : ∀ (db : TargetDb) (record : Record),
      check_unique_constraint_violation db table record = false :=
    fun db record => check_unique_not_registered db table record h
  refine ⟨part1, ?_⟩
  intro restore_conn prod records fk_columns all_columns g processed ts conflict s
  unfold collect_insert_and_update_statements
  have key : ∀ (cctx : ColCtx) (pk : List String) (l : List Record) (s0 : CollectState),
      (l.foldl (process_record table cctx all_columns pk g prod conflict)
        s0).skipped_records = s0.skipped_records := by
    intro cctx pk l
    induction l with
    | nil => intro s0; rfl
    | cons r t ih =>
      intro s0
      rw [List.foldl_cons, ih,
        process_record_skipped_of_no_violation table cctx all_columns pk g prod conflict
          s0 r (fun db => part1 db r)]
  split
  · rfl
  · exact key _ _ records s

/-- C2 counterexample: in existence-checked mode, row A is processed first and
references row B of the same table through the cascade foreign key
parent_ref → account.physical_account.account_id; the reference is unresolved
at that moment, so A is emitted with a NULL foreign key plus a companion
UPDATE carrying the literal B.  Row B is then dropped for a uniqueness
violation and its primary-key value B is recorded in the SkipRegistry — yet
the already-emitted UPDATE (kept in the final buffer) still carries the
foreign-key literal B for exactly that parent table and column, violating the
claim as stated. -/
theorem c2_counterexample :
    registry_mem c2_result.skipped_records "account.physical_account" "account_id" "B"
      = true ∧
    children_of c2_graph "account.physical_account" =
      [⟨"account.physical_account", "parent_ref", "account_id"⟩] ∧
    c2_result.statement_buffer.map Stmt.updates = [[], [("parent_ref", "B")]] ∧
    c2_result.statement_buffer.map Stmt.statement =
      ["INSERT INTO account.physical_account (account_id, custodian_account_id, " ++
         "custodian_id, parent_ref) VALUES (" ++ quoted "A" ++ ", " ++ quoted "999" ++
         ", 4, NULL);",
       "UPDATE account.physical_account SET parent_ref = " ++ quoted "B" ++
         " WHERE account_id = " ++ quoted "A" ++ " AND custodian_account_id = " ++
         quoted "999" ++ " AND custodian_id = 4;"] := by
  refine ⟨by decide, by decide, by decide, by decide⟩

/-- C2 (amended): the cascade-skip check works forward in processing order —
in existence-checked mode, a row whose cascade-graph foreign-key value is
recorded in the SkipRegistry at the time the row is processed is dropped
without emitting an INSERT (its statement text is not added to the seen set
and no primary key of it is registered as restored); statements emitted
before the parent value was skipped, including deferred UPDATE fragments
carrying that value, remain in the buffer. -/
theorem c2_skip_registry_amended (table : String) (cctx : ColCtx)
    (all_columns pk_columns : List String) (g : CascadeGraph) (prod : Option TargetDb)
    (s : CollectState) (record : Record)
    (href : check_references_skipped_parent table record s.skipped_records g = true) :
    (process_record table cctx all_columns pk_columns g prod false s
        record).statement_buffer.filter (fun st => st.type == StmtType.insert) =
      s.statement_buffer.filter (fun st => st.type == StmtType.insert) ∧
    (process_record table cctx all_columns pk_columns g prod false s
        record).restored_records = s.restored_records ∧
    (process_record table cctx all_columns pk_columns g prod false s
        record).insert_statements_seen = s.insert_statements_seen := by
  unfold process_record
  dsimp only
  simp only [href, Bool.false_eq_true, if_false, if_true]
  split_ifs <;>
    simp [List.filter_append, List.filter,
      show (StmtType.update == StmtType.insert) = false from rfl]

theorem c2_skip_registry_amended_witness :
    check_references_skipped_parent "account.physical_account"
      [("account_id", Value.str "C"), ("parent_ref", Value.str "B")]
      [("account.physical_account", [("account_id", ["B"])])] c2_graph = true ∧
    (process_record "account.physical_account"
        ⟨⟨[("parent_ref", "account.physical_account")], [("parent_ref", "account_id")],
          [], none⟩, ["parent_ref"], []⟩
        ["account_id", "parent_ref"] ["account_id"] c2_graph none false
        ⟨[], [], [("account.physical_account", [("account_id", ["B"])])], []⟩
        [("account_id", Value.str "C"), ("parent_ref", Value.str "B")]).statement_buffer.filter
      (fun st => st.type == StmtType.insert) = [] :=
  ⟨by decide,
   by
    rw [(c2_skip_registry_amended "account.physical_account"
      ⟨⟨[("parent_ref", "account.physical_account")], [("parent_ref", "account_id")],
        [], none⟩, ["parent_ref"], []⟩
      ["account_id", "parent_ref"] ["account_id"] c2_graph none
      ⟨[], [], [("account.physical_account", [("account_id", ["B"])])], []⟩
      [("account_id", Value.str "C"), ("parent_ref", Value.str "B")] (by decide)).1]
    rfl⟩

theorem c10_unique_registry_only_three_witness :
    check_unique_constraint_violation c10_example_db "billing.invoice"
      c10_example_record = false ∧
    (collect_insert_and_update_statements c10_example_src (some c10_example_db)
      "billing.invoice" [c10_example_record] [] ["a"] [] [] [] false
      ⟨[], [], [], []⟩).skipped_records = [] :=
  ⟨(c10_unique_registry_only_three "billing.invoice" (by decide)).1
      c10_example_db c10_example_record,
   by
    rw [(c10_unique_registry_only_three "billing.invoice" (by decide)).2
      c10_example_src (some c10_example_db) [c10_example_record] [] ["a"] [] [] []
      false ⟨[], [], [], []⟩]⟩

/-! ## Claim C1: missing-parent discovery -/
theorem discover_missing_parent_records_noop (restore_conn : SourceDb)
    (prod : Option TargetDb) (g : CascadeGraph) (statement_buffer : List Stmt)
    (affected_records : List (String × AffectedEntry)) :
    discover_missing_parent_records restore_conn prod g statement_buffer
      affected_records = (0, statement_buffer, affected_records) := by
  unfold discover_missing_parent_records
  cases prod with
  | none => rfl
  | some p =>
    dsimp only
    generalize discover_candidates restore_conn p statement_buffer = l
    induction l with
    | nil => rfl
    | cons hd t ih => rw [List.foldl_cons]; exact ih

/-- C1: evaluation at a failing input.  The buffer holds one INSERT whose
foreign-key literal P1 references table p, which is absent from the target
database but present in the source database and not scheduled for
restoration — so `discover_candidates` correctly identifies (p, id, P1) as a
missing parent.  Yet `discover_missing_parent_records` returns 0 with the
buffer and the affected-records map unchanged: every candidate iteration dies
on the unbound name `use_conflict_resolution` at source line 1569 (a
NameError caught by the blanket except), so the parent row is never run
through the pipeline and nothing is prepended, contradicting the claim (which
matches the function's own documented intent). -/
theorem c1_code_bug_eval :
    discover_candidates c1_src c1_prod [c1_insert] = [("p", "id", "P1")] ∧
    discover_missing_parent_records c1_src (some c1_prod) [] [c1_insert] [] =
      (0, [c1_insert], []) := by
  refine ⟨by decide, discover_missing_parent_records_noop c1_src (some c1_prod) []
    [c1_insert] []⟩

/-! ## Claim C9: zero-row pairs -/
/-- C9 (amended): a dequeued, not-yet-visited (table, predicate) pair whose
SELECT returns zero rows only marks its key visited and leaves a (ghost)
trace entry with count zero: no affected-records entry is written for it (in
particular, no zero-count entry), no statement is emitted, and no child
predicate is enqueued. -/
theorem c9_zero_rows_amended (restore_conn : SourceDb) (prod : Option TargetDb)
    (g : CascadeGraph) (conflict : Bool) (s : BfsState) (item : QItem)
    (hnv : s.visited_tables.contains (item.table ++ "::" ++ item.conditions) = false)
    (hzero : restore_conn.select item.table item.conditions = []) :
    process_item restore_conn prod g conflict s item =
      { s with
        visited_tables := s.visited_tables ++ [item.table ++ "::" ++ item.conditions],
        trace := s.trace ++ [⟨item.table, item.conditions, item.level, 0⟩] } := by
  have hnotmem : ¬(s.visited_tables.contains
      (item.table ++ "::" ++ item.conditions) = true) := by
    rw [hnv]; exact Bool.false_ne_true
  unfold process_item
  rw [if_neg hnotmem]
  dsimp only
  rw [hzero]
  rfl

/-- C9 counterexample: a full run whose root SELECT returns zero rows ends
with an empty affected-records map — the pair (t, c) was dequeued and its
SELECT executed (the trace records it with count 0), but, contrary to the
claim, no zero-row-count entry is recorded in the discovery's output. -/
theorem c9_counterexample :
    (find_affected_records_iteratively c9_src none [] "t" "c" false 5).affected_records
      = [] ∧
    dget? (find_affected_records_iteratively c9_src none [] "t" "c" false
      5).affected_records "t" = none ∧
    (find_affected_records_iteratively c9_src none [] "t" "c" false 5).state.trace =
      [⟨"t", "c", 0, 0⟩] := by
  refine ⟨by decide, by decide, by decide⟩

theorem c9_zero_rows_amended_witness :
    c9_init.visited_tables.contains ("t" ++ "::" ++ "c") = false ∧
    c9_src.select "t" "c" = [] ∧
    process_item c9_src none [] false c9_init ⟨"t", "c", 0⟩ =
      { c9_init with
        visited_tables := c9_init.visited_tables ++ ["t" ++ "::" ++ "c"],
        trace := c9_init.trace ++ [⟨"t", "c", 0, 0⟩] } :=
  ⟨by decide, rfl,
   c9_zero_rows_amended c9_src none [] false c9_init ⟨"t", "c", 0⟩ (by decide) rfl⟩

theorem process_item_skip (restore_conn : SourceDb) (prod : Option TargetDb)
    (g : CascadeGraph) (conflict : Bool) (s : BfsState) (item : QItem)
    (hv : s.visited_tables.contains (item.table ++ "::" ++ item.conditions) = true) :
    process_item restore_conn prod g conflict s item = s := by
  unfold process_item
  rw [if_pos hv]

theorem process_item_shape (restore_conn : SourceDb) (prod : Option TargetDb)
    (g : CascadeGraph) (conflict : Bool) (s : BfsState) (item : QItem)
    (hnv : ¬(s.visited_tables.contains (item.table ++ "::" ++ item.conditions) = true)) :
    (process_item restore_conn prod g conflict s item).visited_tables =
      s.visited_tables ++ [item.table ++ "::" ++ item.conditions] ∧
    (process_item restore_conn prod g conflict s item).trace =
      s.trace ++ [⟨item.table, item.conditions, item.level,
        (restore_conn.select item.table item.conditions).length⟩] := by
  unfold process_item
  rw [if_neg hnv]
  dsimp only
  split_ifs <;> exact ⟨rfl, rfl⟩

theorem process_item_trace_inv (restore_conn : SourceDb) (prod : Option TargetDb)
    (g : CascadeGraph) (conflict : Bool) (s : BfsState) (item : QItem)
    (h : bfs_trace_inv s) :
    bfs_trace_inv (process_item restore_conn prod g conflict s item) := by
  by_cases hv : s.visited_tables.contains (item.table ++ "::" ++ item.conditions) = true
  · rw [process_item_skip restore_conn prod g conflict s item hv]
    exact h
  · obtain ⟨hV, hT⟩ := process_item_shape restore_conn prod g conflict s item hv
    have hkey : ¬(item.table ++ "::" ++ item.conditions ∈ s.trace.map trace_key) := by
      intro hmem
      exact hv (List.elem_eq_true_of_mem (h.2 _ hmem))
    constructor
    · rw [hT, List.map_append]
      rw [List.nodup_append]
      refine ⟨h.1, by simp, ?_⟩
      intro a ha hb
      simp only [List.map_cons, List.map_nil, List.mem_singleton] at hb
      rw [hb] at ha
      exact hkey ha
    · rw [hT, hV, List.map_append]
      intro k hk
      rcases List.mem_append.mp hk with h2 | h2
      · exact List.mem_append_left _ (h.2 _ h2)
      · simp only [List.map_cons, List.map_nil, List.mem_singleton] at h2
        rw [h2]
        exact List.mem_append_right _ (List.mem_singleton_self _)

theorem bfs_loop_trace_inv (restore_conn : SourceDb) (prod : Option TargetDb)
    (g : CascadeGraph) (conflict : Bool) :
    ∀ (fuel : Nat) (s : BfsState), bfs_trace_inv s →
    bfs_trace_inv (bfs_loop restore_conn prod g conflict fuel s)
  | 0, _, h => h
  | fuel + 1, s, h => by
    unfold bfs_loop
    cases hq : s.queue with
    | nil => exact h
    | cons item rest =>
      exact bfs_loop_trace_inv restore_conn prod g conflict fuel _
        (process_item_trace_inv restore_conn prod g conflict { s with queue := rest }
          item ⟨h.1, h.2⟩)

/-- C8: within one run of affected-record discovery, no two executed
row-fetching SELECTs (and hence no two pipeline invocations) share the same
(table, predicate) pair — the trace of executed SELECTs is pairwise distinct
on that pair, however often a pair was enqueued. -/
theorem c8_pair_processed_at_most_once (restore_conn : SourceDb)
    (prod : Option TargetDb) (g : CascadeGraph) (start_table start_conditions : String)
    (conflict : Bool) (fuel : Nat) :
    ((find_affected_records_iteratively restore_conn prod g start_table
        start_conditions conflict fuel).state.trace).Pairwise
      (fun a b => ¬(a.table = b.table ∧ a.conditions = b.conditions)) := by
  have hinit : bfs_trace_inv
      ⟨[], [], [], [], [], [], [], [], [⟨start_table, start_conditions, 0⟩], []⟩ := by
    constructor
    · simp
    · simp
  have h := bfs_loop_trace_inv restore_conn prod g conflict fuel _ hinit
  unfold find_affected_records_iteratively
  dsimp only
  have hp := List.pairwise_map.mp h.1
  exact hp.imp (fun hne hab => hne (by rw [trace_key, trace_key, hab.1, hab.2]))

theorem getLast?_append_singleton {γ : Type} (l : List γ) (a : γ) :
    (l ++ [a]).getLast? = some a :=
  List.getLast?_concat l

theorem last_nonzero_append_zero (tr : List TraceEntry) (e : TraceEntry) (T : String)
    (h : e.record_count = 0) :
    last_nonzero_entry (tr ++ [e]) T = last_nonzero_entry tr T := by
  unfold last_nonzero_entry
  rw [List.filter_append]
  have hb : (!(e.record_count == 0)) = false := by simp [h]
  have hnil : List.filter (fun e2 => e2.table == T && !(e2.record_count == 0)) [e] = [] := by
    simp [List.filter, hb]
  rw [hnil, List.append_nil]

theorem last_nonzero_append_pos_self (tr : List TraceEntry) (e : TraceEntry)
    (h : ¬(e.record_count = 0)) :
    last_nonzero_entry (tr ++ [e]) e.table =
      some ⟨e.record_count, e.conditions, e.level⟩ := by
  unfold last_nonzero_entry
  rw [List.filter_append]
  have hb : (!(e.record_count == 0)) = true := by simp [h]
  have hone : List.filter (fun e2 => e2.table == e.table && !(e2.record_count == 0)) [e]
      = [e] := by
    simp [List.filter, hb]
  rw [hone, getLast?_append_singleton]
  rfl

theorem last_nonzero_append_pos_other (tr : List TraceEntry) (e : TraceEntry) (T : String)
    (hne : ¬(e.table = T)) :
    last_nonzero_entry (tr ++ [e]) T = last_nonzero_entry tr T := by
  unfold last_nonzero_entry
  rw [List.filter_append]
  have hb : (e.table == T && !(e.record_count == 0)) = false := by simp [hne]
  have hnil : List.filter (fun e2 => e2.table == T && !(e2.record_count == 0)) [e] = [] := by
    simp [List.filter, hb]
  rw [hnil, List.append_nil]

theorem insert_texts_append_insert (statements : List Stmt) (st : Stmt)
    (hty : st.type = StmtType.insert) :
    insert_texts (statements ++ [st]) = insert_texts statements ++ [st.statement] := by
  unfold insert_texts
  rw [List.filter_append, List.map_append]
  congr 1
  have hb : (st.type == StmtType.insert) = true := by rw [hty]; rfl
  simp [List.filter, hb]

theorem insert_texts_append_update (statements : List Stmt) (st : Stmt)
    (hty : st.type = StmtType.update) :
    insert_texts (statements ++ [st]) = insert_texts statements := by
  unfold insert_texts
  rw [List.filter_append]
  have hb : (st.type == StmtType.insert) = false := by rw [hty]; rfl
  have hnil : List.filter (fun st2 => st2.type == StmtType.insert) [st] = [] := by
    simp [List.filter, hb]
  rw [hnil, List.append_nil]

theorem collect_inv_upd (seen : List String) (r sk : Registry) (buf : List Stmt)
    (st : Stmt) (hty : st.type = StmtType.update)
    (h : collect_inv ⟨seen, r, sk, buf⟩) :
    collect_inv ⟨seen, r, sk, buf ++ [st]⟩ := by
  constructor
  · show (insert_texts (buf ++ [st])).Nodup
    rw [insert_texts_append_update _ _ hty]
    exact h.1
  · intro x hx
    rw [show (⟨seen, r, sk, buf ++ [st]⟩ : CollectState).statement_buffer
        = buf ++ [st] from rfl, insert_texts_append_update _ _ hty] at hx
    exact h.2 x hx

theorem collect_inv_ins (seen : List String) (r sk : Registry) (buf : List Stmt)
    (st : Stmt) (r2 : Registry) (hty : st.type = StmtType.insert)
    (hseen : st.statement ∉ seen) (h : collect_inv ⟨seen, r, sk, buf⟩) :
    collect_inv ⟨seen ++ [st.statement], r2, sk, buf ++ [st]⟩ := by
  have htx : st.statement ∉ insert_texts buf := fun hmem => hseen (h.2 _ hmem)
  constructor
  · show (insert_texts (buf ++ [st])).Nodup
    rw [insert_texts_append_insert _ _ hty, List.nodup_append]
    refine ⟨h.1, by simp, ?_⟩
    intro a ha hb
    rw [List.mem_singleton.mp hb] at ha
    exact htx ha
  · intro x hx
    rw [show (⟨seen ++ [st.statement], r2, sk, buf ++ [st]⟩ :
        CollectState).statement_buffer = buf ++ [st] from rfl,
      insert_texts_append_insert _ _ hty] at hx
    rcases List.mem_append.mp hx with h2 | h2
    · exact List.mem_append_left _ (h.2 x h2)
    · rw [List.mem_singleton.mp h2]
      exact List.mem_append_right _ (List.mem_singleton_self _)

theorem collect_inv_ins_upd (seen : List String) (r sk : Registry) (buf : List Stmt)
    (st st2 : Stmt) (r2 : Registry) (hty : st.type = StmtType.insert)
    (hty2 : st2.type = StmtType.update) (hseen : st.statement ∉ seen)
    (h : collect_inv ⟨seen, r, sk, buf⟩) :
    collect_inv ⟨seen ++ [st.statement], r2, sk, (buf ++ [st]) ++ [st2]⟩ :=
  collect_inv_upd (seen ++ [st.statement]) r2 sk (buf ++ [st]) st2 hty2
    (collect_inv_ins seen r sk buf st r2 hty hseen h)

theorem not_mem_of_not_contains {l : List String} {a : String}
    (h : (!(l.contains a)) = true) : a ∉ l := by
  intro hmem
  have hc : l.contains a = true := List.elem_eq_true_of_mem hmem
  rw [hc] at h
  exact Bool.false_ne_true h

theorem collect_inv_final_if (c : Prop) [Decidable c] (cs : CollectState) (st : Stmt)
    (hty : st.type = StmtType.update) (h : collect_inv cs) :
    collect_inv (if c then { cs with statement_buffer := cs.statement_buffer ++ [st] }
      else cs) := by
  split
  · exact collect_inv_upd cs.insert_statements_seen cs.restored_records
      cs.skipped_records cs.statement_buffer st hty h
  · exact h

theorem process_record_collect_inv (table : String) (cctx : ColCtx)
    (all_columns pk_columns : List String) (g : CascadeGraph) (prod : Option TargetDb)
    (conflict : Bool) (s : CollectState) (record : Record) (h : collect_inv s) :
    collect_inv (process_record table cctx all_columns pk_columns g prod conflict
      s record) := by
  unfold process_record
  dsimp only
  refine collect_inv_final_if _ _ _ ?_ ?_
  · rfl
  · split_ifs <;> try exact h
    all_goals
      (refine collect_inv_ins s.insert_statements_seen s.restored_records
          s.skipped_records s.statement_buffer _ _ ?_ ?_ h <;>
        first
          | rfl
          | exact not_mem_of_not_contains (by assumption))

theorem collect_collect_inv (restore_conn : SourceDb) (prod : Option TargetDb)
    (table : String) (records : List Record) (fk_columns all_columns : List String)
    (g : CascadeGraph) (processed ts : List String) (conflict : Bool)
    (s : CollectState) (h : collect_inv s) :
    collect_inv (collect_insert_and_update_statements restore_conn prod table records
      fk_columns all_columns g processed ts conflict s) := by
  unfold collect_insert_and_update_statements
  split
  · exact h
  · dsimp only
    have key : ∀ (l : List Record) (s0 : CollectState), collect_inv s0 →
        collect_inv (l.foldl (process_record table
          ⟨⟨(fk_parent_maps g (get_all_foreign_key_relationships restore_conn table)
              table).1,
            (fk_parent_maps g (get_all_foreign_key_relationships restore_conn table)
              table).2, processed, prod⟩, fk_columns, ts⟩
          all_columns (get_primary_key_columns_from_constraints restore_conn table)
          g prod conflict) s0) := by
      intro l
      induction l with
      | nil => intro s0 h0; exact h0
      | cons r t ih =>
        intro s0 h0
        rw [List.foldl_cons]
        exact ih _ (process_record_collect_inv _ _ _ _ _ _ _ _ _ h0)
    exact key records s h

theorem process_item_run_inv (restore_conn : SourceDb) (prod : Option TargetDb)
    (g : CascadeGraph) (conflict : Bool) (s : BfsState) (item : QItem)
    (h : bfs_run_inv s) :
    bfs_run_inv (process_item restore_conn prod g conflict s item) := by
  by_cases hv : s.visited_tables.contains (item.table ++ "::" ++ item.conditions) = true
  · rw [process_item_skip restore_conn prod g conflict s item hv]
    exact h
  · unfold process_item
    rw [if_neg hv]
    try dsimp only
    by_cases hz : (restore_conn.select item.table item.conditions).length = 0
    · rw [if_pos hz]
      refine ⟨fun T => ?_, h.2⟩
      have he0 : (⟨item.table, item.conditions, item.level,
          (restore_conn.select item.table item.conditions).length⟩ :
            TraceEntry).record_count = 0 := hz
      rw [last_nonzero_append_zero _ _ _ he0]
      exact h.1 T
    · rw [if_neg hz]
      try dsimp only
      constructor
      · intro T
        by_cases hteq : item.table = T
        · subst hteq
          rw [dget?_dset_self]
          rw [last_nonzero_append_pos_self _ _ hz]
        · rw [dget?_dset_ne _ _ _ _ hteq]
          rw [last_nonzero_append_pos_other _ _ _ hteq]
          exact h.1 T
      · exact collect_collect_inv restore_conn prod item.table _ _ _ g _ _ conflict _ h.2

theorem bfs_loop_run_inv (restore_conn : SourceDb) (prod : Option TargetDb)
    (g : CascadeGraph) (conflict : Bool) :
    ∀ (fuel : Nat) (s : BfsState), bfs_run_inv s →
    bfs_run_inv (bfs_loop restore_conn prod g conflict fuel s)
  | 0, _, h => h
  | fuel + 1, s, h => by
    unfold bfs_loop
    cases hq : s.queue with
    | nil => exact h
    | cons item rest =>
      exact bfs_loop_run_inv restore_conn prod g conflict fuel _
        (process_item_run_inv restore_conn prod g conflict { s with queue := rest }
          item ⟨h.1, h.2⟩)

/-- C3 (amended): when a table T is reached by the traversal through several
distinct predicates at depths d1 < d2, each is dequeued and processed
separately (their predicates differ, so the visited-set does not collapse
them), and the final affected-records entry for T is the one of the *last*
processed nonzero-row occurrence — under FIFO order the deepest depth d2,
not d1 as claimed; rows are emitted exactly once only in the sense that no
INSERT statement text is ever buffered twice. -/
theorem c3_diamond_amended (restore_conn : SourceDb) (prod : Option TargetDb)
    (g : CascadeGraph) (start_table start_conditions : String) (conflict : Bool)
    (fuel : Nat) :
    (∀ T, dget? (find_affected_records_iteratively restore_conn prod g start_table
        start_conditions conflict fuel).affected_records T =
      last_nonzero_entry (find_affected_records_iteratively restore_conn prod g
        start_table start_conditions conflict fuel).state.trace T) ∧
    (insert_texts (find_affected_records_iteratively restore_conn prod g start_table
      start_conditions conflict fuel).state.statement_buffer).Nodup := by
  have hinit : bfs_run_inv
      ⟨[], [], [], [], [], [], [], [], [⟨start_table, start_conditions, 0⟩], []⟩ := by
    refine ⟨fun T => rfl, by simp [collect_inv, insert_texts], ?_⟩
    intro x hx
    simp [insert_texts] at hx
  have h := bfs_loop_run_inv restore_conn prod g conflict fuel _ hinit
  unfold find_affected_records_iteratively
  dsimp only
  rw [discover_missing_parent_records_noop]
  exact ⟨h.1, h.2.1⟩

/-- C3 counterexample: in the diamond R→T (depth 1) and R→A→T (depth 2), T is
dequeued twice with distinct predicates at levels 1 and 2 (the trace shows
both, each returning one row), its single row is emitted exactly once — but
the final affected-records entry for T reports depth 2 (the deeper, later
path), not the minimum depth 1 the claim requires. -/
theorem c3_counterexample :
    c3_run.state.trace =
      [⟨"R", "id = 1", 0, 1⟩,
       ⟨"A", "a IN (SELECT DISTINCT id FROM R WHERE id = 1)", 1, 1⟩,
       ⟨"T", c3_condT1, 1, 1⟩,
       ⟨"T", c3_condT2, 2, 1⟩] ∧
    c3_condT1 ≠ c3_condT2 ∧
    dget? c3_run.affected_records "T" = some ⟨1, c3_condT2, 2⟩ ∧
    (2 : Nat) ≠ 1 ∧
    insert_texts c3_run.state.statement_buffer =
      ["INSERT INTO R (id) VALUES (" ++ quoted "1" ++ ");",
       "INSERT INTO A (id) VALUES (" ++ quoted "1" ++ ");",
       "INSERT INTO T (id) VALUES (" ++ quoted "1" ++ ");"] := by
  refine ⟨by decide, by decide, by decide, by decide, by decide⟩

end Restoration
